import Mathlib

/-!
Shallow embedding of the ad-hoc query engine of the sales-data repository
(the `SalesDataQuery` class of the interactive query tool: `parseQuery`,
`search`, `formatResults`, `getAvailableFields` and their helpers), together
with theorems settling the frozen claims about it.

Modelling conventions:
* JavaScript values occurring in the loaded JSON records are modelled by the
  inductive type `Value` (strings, numbers as rationals, booleans, `null`,
  `undefined`, and plain objects as ordered association lists).  Arrays and
  IEEE floating-point artefacts are not modelled; no claim depends on them.
* JavaScript strings are Lean `String`s and every string operation the code
  uses (`toLowerCase`, `trim`, `includes`, `split`, ...) is defined here
  explicitly over the character list, so that proofs can reason about them.
* `parseFloat` is modelled for decimal literals (sign, digits, fraction,
  leading whitespace, trailing garbage ignored); exponent notation is not
  modelled, no claim exercises it.
* Code paths on which the JavaScript program would throw a `TypeError`
  (calling `.toLowerCase()` on a non-string, using the `availableFields`
  array when it was never initialised) are modelled with `Except`.
-/

namespace SalesData

/-- A JavaScript value as it can occur in the loaded record collection. -/
inductive Value where
  | str : String → Value
  | num : Rat → Value
  | boolean : Bool → Value
  | null : Value
  | undefined : Value
  | obj : List (String × Value) → Value
deriving Repr

mutual

/-- Decidable equality for `Value` (arrays of entries compared pointwise). -/
def Value.beq : Value → Value → Bool
  | .str a, .str b => a == b
  | .num a, .num b => a == b
  | .boolean a, .boolean b => a == b
  | .null, .null => true
  | .undefined, .undefined => true
  | .obj a, .obj b => Value.beqEntries a b
  | _, _ => false

def Value.beqEntries : List (String × Value) → List (String × Value) → Bool
  | [], [] => true
  | (k, v) :: t, (k', v') :: t' => k == k' && Value.beq v v' && Value.beqEntries t t'
  | _, _ => false

end

mutual

theorem Value.beq_iff : ∀ a b : Value, Value.beq a b = true ↔ a = b
  | .str a, .str b => by simp [Value.beq]
  | .num a, .num b => by simp [Value.beq]
  | .boolean a, .boolean b => by simp [Value.beq]
  | .null, .null => by simp [Value.beq]
  | .undefined, .undefined => by simp [Value.beq]
  | .obj a, .obj b => by
      simp only [Value.beq, Value.obj.injEq]
      exact Value.beqEntries_iff a b
  | .str _, .num _ | .str _, .boolean _ | .str _, .null | .str _, .undefined | .str _, .obj _
  | .num _, .str _ | .num _, .boolean _ | .num _, .null | .num _, .undefined | .num _, .obj _
  | .boolean _, .str _ | .boolean _, .num _ | .boolean _, .null | .boolean _, .undefined
  | .boolean _, .obj _
  | .null, .str _ | .null, .num _ | .null, .boolean _ | .null, .undefined | .null, .obj _
  | .undefined, .str _ | .undefined, .num _ | .undefined, .boolean _ | .undefined, .null | .undefined, .obj _
  | .obj _, .str _ | .obj _, .num _ | .obj _, .boolean _ | .obj _, .null | .obj _, .undefined =>
      by simp [Value.beq]

theorem Value.beqEntries_iff : ∀ a b : List (String × Value), Value.beqEntries a b = true ↔ a = b
  | [], [] => by simp [Value.beqEntries]
  | (k, v) :: t, (k', v') :: t' => by
      simp only [Value.beqEntries, Bool.and_eq_true, List.cons.injEq, Prod.mk.injEq]
      rw [Value.beq_iff v v', Value.beqEntries_iff t t']
      constructor
      · rintro ⟨⟨h1, h2⟩, h3⟩; exact ⟨⟨by simpa using h1, h2⟩, h3⟩
      · rintro ⟨⟨h1, h2⟩, h3⟩; exact ⟨⟨by simpa using h1, h2⟩, h3⟩
  | [], _ :: _ => by simp [Value.beqEntries]
  | _ :: _, [] => by simp [Value.beqEntries]

end

instance : DecidableEq Value := fun a b =>
  decidable_of_iff (Value.beq a b = true) (Value.beq_iff a b)

/-- A record of the loaded collection: one customer, as an ordered mapping of
attribute names to values (the shape produced by `JSON.parse`). -/
abbrev Record := List (String × Value)

/-- JavaScript property read `record[key]`: `undefined` when absent. -/
def lookupD (r : Record) (k : String) : Value :=
  match r.find? (fun e => e.1 == k) with
  | some e => e.2
  | none => .undefined

/-- JavaScript truthiness. -/
def truthy : Value → Bool
  | .str s => s ≠ ""
  | .num q => q ≠ 0
  | .boolean b => b
  | .null => false
  | .undefined => false
  | .obj _ => true

/-- `x || ''` : the value if truthy, else the empty string. -/
def orEmptyStr (v : Value) : Value :=
  if truthy v then v else .str ""

/-- JavaScript whitespace class (the characters relevant to `\s` and `trim`). -/
def isWs (c : Char) : Bool :=
  c.isWhitespace

/-- A `\w` character: ASCII letter, digit or underscore. -/
def isWordChar (c : Char) : Bool :=
  c.isAlphanum || c == '_'

/-- `String.prototype.toLowerCase` (ASCII case folding suffices here). -/
def lowerStr (s : String) : String :=
  ⟨s.data.map Char.toLower⟩

/-- `String.prototype.trim`. -/
def trimStr (s : String) : String :=
  ⟨((s.data.dropWhile isWs).reverse.dropWhile isWs).reverse⟩

/-- `l` starts with the pattern `pat`. -/
def startsWithL : List Char → List Char → Bool
  | [], _ => true
  | _ :: _, [] => false
  | a :: as, b :: bs => a == b && startsWithL as bs

/-- The pattern `pat` occurs somewhere in `l`. -/
def containsL (pat : List Char) : List Char → Bool
  | [] => startsWithL pat []
  | c :: rest => startsWithL pat (c :: rest) || containsL pat rest

/-- `String.prototype.includes` (substring containment). -/
def jsIncludes (s sub : String) : Bool :=
  containsL sub.data s.data

theorem length_dropWhile_le (p : α → Bool) (l : List α) :
    (l.dropWhile p).length ≤ l.length := by
  induction l with
  | nil => simp
  | cons a t ih =>
    by_cases h : p a
    · simpa [List.dropWhile, h] using Nat.le_succ_of_le ih
    · simp [List.dropWhile, h]

/-- Decimal digits of a natural number, most significant first (the fuel
argument only bounds the recursion depth). -/
def natCharsAux : Nat → Nat → List Char
  | 0, _ => []
  | fuel + 1, n =>
    if n < 10 then [Char.ofNat (48 + n)]
    else natCharsAux fuel (n / 10) ++ [Char.ofNat (48 + n % 10)]

def natChars (n : Nat) : List Char := natCharsAux (n + 1) n

def natToStr (n : Nat) : String := ⟨natChars n⟩

def intToStr (i : Int) : String :=
  if i < 0 then "-" ++ natToStr i.natAbs else natToStr i.natAbs

/-- Decimal rendering of a JavaScript number.  Integral values are rendered
exactly as JavaScript does; non-integral rationals (which no claim exercises)
are rendered as `num/den` — JavaScript's shortest-roundtrip float printing is
not modelled. -/
def ratToStr (q : Rat) : String :=
  if q.den = 1 then intToStr q.num
  else intToStr q.num ++ "/" ++ natToStr q.den

/-- Coercion of a value to a string, as in template literals and `toString()`. -/
def jsToString : Value → String
  | .str s => s
  | .num q => ratToStr q
  | .boolean b => if b then "true" else "false"
  | .null => "null"
  | .undefined => "undefined"
  | .obj _ => "[object Object]"

def digitsVal (l : List Char) : Nat :=
  l.foldl (fun a c => a * 10 + (c.toNat - 48)) 0

/-- The rational denoted by a sign, integer digits and fraction digits
(built through the normalising constructor, which is definitionally
transparent, unlike the irreducible `Rat` arithmetic). -/
def decRat (neg : Bool) (ip fp : List Char) : Rat :=
  let n : Nat := digitsVal ip * 10 ^ fp.length + digitsVal fp
  mkRat (if neg then -(n : Int) else (n : Int)) (10 ^ fp.length)

/-- Rational addition, via the normalising constructor. -/
def ratAdd (a b : Rat) : Rat :=
  mkRat (a.num * b.den + b.num * a.den) (a.den * b.den)

/-- `parseFloat`: skips leading whitespace, optional sign, digits with an
optional fraction, ignores the rest.  `none` means `NaN`. -/
def jsParseFloat (s : String) : Option Rat :=
  let l := s.data.dropWhile isWs
  let l1 := match l with | '-' :: t => t | '+' :: t => t | _ => l
  let ip := l1.takeWhile Char.isDigit
  let l2 := l1.dropWhile Char.isDigit
  let fp := match l2 with | '.' :: t => t.takeWhile Char.isDigit | _ => []
  if ip = [] && fp = [] then none
  else some (decRat (l.head? == some '-') ip fp)

/-- `parseFloat` applied to an arbitrary value (coerced to a string first). -/
def jsParseFloatV (v : Value) : Option Rat :=
  jsParseFloat (jsToString v)

/-- The `Number()` coercion.  `none` means `NaN`. -/
def jsNumber : Value → Option Rat
  | .num q => some q
  | .null => some 0
  | .undefined => none
  | .boolean b => some (if b then 1 else 0)
  | .obj _ => none
  | .str s =>
    let t := (trimStr s).data
    if t = [] then some 0
    else
      let l1 := match t with | '-' :: r => r | '+' :: r => r | _ => t
      let ip := l1.takeWhile Char.isDigit
      let l2 := l1.dropWhile Char.isDigit
      let fp := match l2 with | '.' :: r => r.takeWhile Char.isDigit | _ => []
      let l3 := match l2 with | '.' :: r => r.dropWhile Char.isDigit | _ => l2
      if (ip = [] && fp = []) || l3 ≠ [] then none
      else some (decRat (t.head? == some '-') ip fp)

/-- `query.split(/\s+/)` : split on maximal whitespace runs, keeping the empty
pieces JavaScript produces at the ends. -/
def splitWsAux : List Char → List Char → List (List Char)
  | [], cur => [cur.reverse]
  | c :: rest, cur =>
    if isWs c then
      match rest with
      | [] => [cur.reverse, []]
      | d :: rest' =>
        if isWs d then splitWsAux (d :: rest') cur
        else cur.reverse :: splitWsAux (d :: rest') []
    else splitWsAux rest (c :: cur)

def splitWs (s : String) : List String :=
  (splitWsAux s.data []).map List.asString

def countQuotes (l : List Char) : Nat :=
  l.countP (fun c => c == '"')

/-- `query.split(/\s+(?=(?:[^"]*"[^"]*")*[^"]*$)/)` : split on maximal
whitespace runs that are followed by an even number of double quotes
(i.e. whitespace outside quoted substrings).  The parity of the quotes after
a whitespace run equals the parity after any of its characters, so the test
is made at each whitespace character. -/
def splitQAAux : List Char → List Char → List (List Char)
  | [], cur => [cur.reverse]
  | c :: rest, cur =>
    if isWs c then
      if countQuotes rest % 2 == 0 then
        match rest with
        | [] => [cur.reverse, []]
        | d :: rest' =>
          if isWs d then splitQAAux (d :: rest') cur
          else cur.reverse :: splitQAAux (d :: rest') []
      else splitQAAux rest (c :: cur)
    else splitQAAux rest (c :: cur)

def splitQA (s : String) : List String :=
  (splitQAAux s.data []).map List.asString

/-- `path.split('.')` and friends: split on every occurrence of one character. -/
def splitCharAux (c : Char) : List Char → List Char → List (List Char)
  | [], cur => [cur.reverse]
  | x :: rest, cur =>
    if x == c then cur.reverse :: splitCharAux c rest []
    else splitCharAux c rest (x :: cur)

def splitChar (c : Char) (s : String) : List String :=
  (splitCharAux c s.data []).map List.asString

/-- `field.includes('.')`. -/
def hasDot (s : String) : Bool :=
  s.data.contains '.'

/-- `value.trim().replace(/^"|"$/g, '')` : strip at most one leading and one
trailing double quote. -/
def stripEdgeQuotes (s : String) : String :=
  let l := s.data
  let l1 := if l.head? == some '"' then l.tail else l
  let l2 := if l1.getLast? == some '"' then l1.dropLast else l1
  ⟨l2⟩

/-- `value.startsWith('"') && value.endsWith('"') ? value.slice(1, -1) : value`. -/
def stripPairQuotes (s : String) : String :=
  if s.data.head? == some '"' && s.data.getLast? == some '"' then
    ⟨(s.data.drop 1).dropLast⟩
  else s

/-- `cleanValue`: `if (!value) return ''; return value.toString().trim().toLowerCase()`. -/
def cleanValue (v : Value) : String :=
  if truthy v then lowerStr (trimStr (jsToString v)) else ""

/-- `matchesValue(value, searchTerm)`: exact match after cleaning, else lenient
substring match, with the Johns Creek / Atlanta special case. -/
def matchesValue (v : Value) (searchTerm : Value) : Bool :=
  match v with
  | .undefined => false
  | .null => false
  | _ =>
    let cv := cleanValue v
    let cs := cleanValue searchTerm
    if cv == cs then true
    else if cs ≠ "" && cv ≠ "" && jsIncludes cv cs then
      if cv == "johns creek" && cs == "atlanta" then false else true
    else false

/-- Property access `value[key]` for path walking: object lookup, `undefined`
otherwise (string index access is not modelled; no attribute path indexes into
a string). -/
def member (v : Value) (k : String) : Value :=
  match v with
  | .obj o => lookupD o k
  | _ => .undefined

def walkPath : Value → List String → Value
  | v, [] => v
  | v, k :: ks =>
    if v = .null ∨ v = .undefined then .undefined
    else walkPath (member v k) ks

/-- `getNestedValue(obj, path)`: walk a dot-separated path. -/
def getNestedValue (r : Record) (path : String) : Value :=
  walkPath (.obj r) (splitChar '.' path)

/-- The static `FIELD_MAPPINGS` table, in source order. -/
def FIELD_MAPPINGS : List (String × String) :=
  [("name", "name"),
   ("tech client", "tech_client"),
   ("client type", "client_type_overwrite"),
   ("coverage", "coverage_name"),
   ("coverage normalized", "coverage_name_normalized"),
   ("coverage type", "coverage_client_type"),
   ("coverage subtype", "coverage_client_subtype"),
   ("branch", "branch_description"),
   ("sub branch", "sub_branch_description"),
   ("industry", "industry_description"),
   ("sub industry", "sub_industry_description"),
   ("sector", "sector"),
   ("employees", "employee_count"),
   ("it spend", "it_spend_estimate"),
   ("company size", "company_size"),
   ("city", "city"),
   ("state", "state"),
   ("location", "location"),
   ("revenue 2024", "revenue_2024"),
   ("revenue 2023", "revenue_2023"),
   ("revenue 2022", "revenue_2022"),
   ("growth", "growth"),
   ("data ai partner", "top_data_ai_business_partner"),
   ("it auto partner", "top_it_auto_app_mod_business_partner"),
   ("key bp", "key_bp"),
   ("products", "products"),
   ("has coverage", "has_coverage"),
   ("fields", "__show_fields"),
   ("list fields", "__show_fields"),
   ("show fields", "__show_fields")]

/-- A criterion value: the parser stores strings, or numbers for the
natural-language revenue/growth thresholds (`nan` for a threshold whose
digits did not parse). -/
inductive CVal where
  | s : String → CVal
  | n : Rat → CVal
  | nan : CVal
deriving DecidableEq, Repr

/-- View of a criterion value as a `Value` (for `cleanValue`/`matchesValue`). -/
def CVal.toValue : CVal → Value
  | .s v => .str v
  | .n q => .num q
  | .nan => .num 0   -- only `cleanValue` sees this; `cleanValue(NaN) = ''` since NaN is falsy

/-- One match criterion `{ field, value, operator? }`. -/
structure Criterion where
  field : String
  value : CVal
  operator : Option String := none
deriving DecidableEq, Repr

/-- A parsed query: either the show-fields directive (the array
`[{ field: '__show_fields', value: true }]`) or criteria plus an optional
projection. -/
inductive QueryParams where
  | showFields : QueryParams
  | query : List Criterion → Option (List String) → QueryParams
deriving DecidableEq, Repr

mutual

/-- `getAvailableFields`: every field name of an object, recursing into nested
objects with dot-joined names. -/
def getAvailableFields (r : Record) (pre : String := "") : List String :=
  gafEntries pre r

def gafEntries (pre : String) : List (String × Value) → List String
  | [] => []
  | (k, v) :: rest =>
    let fieldName := if pre == "" then k else pre ++ "." ++ k
    (fieldName :: gafNested fieldName v) ++ gafEntries pre rest

def gafNested (fieldName : String) : Value → List String
  | .obj o => gafEntries fieldName o
  | _ => []

end

/-- The engine state: the loaded collection plus the `availableFields` array
(`undefined` when the collection is empty, since the constructor only
initialises it for a non-empty collection). -/
structure EngineState where
  customers : List Record
  availableFields : Option (List String)
deriving Repr, DecidableEq

instance {ε α : Type} [DecidableEq ε] [DecidableEq α] : DecidableEq (Except ε α) := fun x y =>
  match x, y with
  | .ok a, .ok b =>
    if h : a = b then isTrue (by rw [h]) else isFalse (by intro hh; cases hh; exact h rfl)
  | .error a, .error b =>
    if h : a = b then isTrue (by rw [h]) else isFalse (by intro hh; cases hh; exact h rfl)
  | .ok _, .error _ => isFalse (by intro hh; cases hh)
  | .error _, .ok _ => isFalse (by intro hh; cases hh)

/-- The `SalesDataQuery` constructor. -/
def mkEngine (customers : List Record) : EngineState :=
  { customers := customers
    availableFields :=
      match customers with
      | [] => none
      | r :: _ => some (getAvailableFields r) }

/-- `.toLowerCase()` on a value: a `TypeError` unless it is a string. -/
def toLowerE (v : Value) : Except String String :=
  match v with
  | .str s => .ok (lowerStr s)
  | _ => .error "TypeError: toLowerCase is not a function"

/-- `.toLowerCase()` on a criterion value. -/
def cvalLower (c : CVal) : Except String String :=
  match c with
  | .s v => .ok (lowerStr v)
  | _ => .error "TypeError: toLowerCase is not a function"

/-- `customer.original && customer.original[k] ? customer.original[k] : ''`. -/
def origField (r : Record) (k : String) : Value :=
  let o := lookupD r "original"
  if truthy o && truthy (member o k) then member o k else .str ""

/-- The number a stored value contributes to an operator comparison:
`typeof value === 'string' ? parseFloat(value) : value`, then the global
`isNaN` guard, then JavaScript numeric coercion in the comparison (`null`
counts as `0`, booleans as `0`/`1`).  `none` means the `isNaN` guard fires. -/
def effNum : Value → Option Rat
  | .str s => jsParseFloat s
  | .num q => some q
  | .null => some 0
  | .boolean b => some (if b then 1 else 0)
  | .undefined => none
  | .obj _ => none

/-- Same for the criterion value of an operator comparison. -/
def critNum : CVal → Option Rat
  | .s s => jsParseFloat s
  | .n q => some q
  | .nan => none

/-- `parseFloat(criterion.value)` (numbers are coerced through their string
form, which is the identity for the integral values the parser produces). -/
def critParseFloat : CVal → Option Rat
  | .s s => jsParseFloat s
  | .n q => jsParseFloatV (.num q)
  | .nan => none

def opEval (op : String) (a b : Rat) : Bool :=
  if op == ">" then a > b
  else if op == ">=" then a ≥ b
  else if op == "<" then a < b
  else if op == "<=" then a ≤ b
  else a == b

/-- `Object.keys(value)` (for the products check; string values expose their
index keys, everything else has none). -/
def jsKeys : Value → List String
  | .obj o => o.map (·.1)
  | .str s => (List.range s.length).map natToStr
  | _ => []

/-- One criterion applied to one customer: the body of the `criteria.every`
callback in `search`, in source order. -/
def evalCriterion (r : Record) (c : Criterion) : Except String Bool :=
  match c.operator with
  | some op =>
    match effNum (lookupD r c.field), critNum c.value with
    | some a, some b => .ok (opEval op a b)
    | _, _ => .ok false
  | none =>
    if c.field == "name" then
      let name := orEmptyStr (lookupD r "name")
      let originalName := origField r "URN NAME"
      let cs := cleanValue c.value.toValue
      .ok (jsIncludes (cleanValue name) cs || jsIncludes (cleanValue originalName) cs)
    else if c.field == "city" then do
      let city := orEmptyStr (lookupD r "city")
      let originalCity := origField r "Prmry City Name"
      let searchValue ← cvalLower c.value
      let cl ← toLowerE city
      if searchValue == "atlanta" || searchValue == "\"atlanta\"" then
        if cl == "atlanta" then .ok true
        else do
          let ol ← toLowerE originalCity
          .ok (ol == "atlanta")
      else
        if jsIncludes cl searchValue then .ok true
        else do
          let ol ← toLowerE originalCity
          .ok (jsIncludes ol searchValue)
    else if c.field == "branch_description" || c.field == "coverage_name" then
      let value := orEmptyStr (lookupD r c.field)
      let originalBranch := origField r "BRNCH_DSCR 1H25"
      let originalCoverage := origField r "Cov Name 1H25"
      let cs := cleanValue c.value.toValue
      .ok (jsIncludes (cleanValue value) cs || jsIncludes (cleanValue originalBranch) cs ||
           jsIncludes (cleanValue originalCoverage) cs)
    else if hasDot c.field then
      let value := getNestedValue r c.field
      match value with
      | .num q =>
        match critParseFloat c.value with
        | some sn => .ok (decide (q = sn))
        | none => .ok false
      | _ => .ok (matchesValue value c.value.toValue)
    else
      let value := lookupD r c.field
      if c.field == "products" || c.field == "clean_products" then
        .ok ((jsKeys value).any (fun k => matchesValue (.str k) c.value.toValue))
      else if c.field == "revenue_2024" || c.field == "revenue_2023" ||
              c.field == "revenue_2022" || c.field == "employee_count" then
        match critParseFloat c.value, jsParseFloatV value with
        | some sn, some vn => .ok (decide (vn = sn))
        | _, _ => .ok false
      else if c.field == "growth" then
        match critParseFloat c.value, jsParseFloatV value with
        | some sn, some vn => .ok (decide (vn = sn))
        | _, _ => .ok false
      else if c.field == "location" then
        let location := trimStr (jsToString (orEmptyStr (lookupD r "city")) ++ ", " ++
                                 jsToString (orEmptyStr (lookupD r "state")))
        .ok (matchesValue (.str location) c.value.toValue)
      else
        .ok (matchesValue value c.value.toValue)

/-- `criteria.every(...)` with short-circuiting. -/
def evalAll (r : Record) : List Criterion → Except String Bool
  | [] => .ok true
  | c :: cs => do
    let b ← evalCriterion r c
    if b then evalAll r cs else .ok false

/-- `Array.prototype.filter` with a possibly-throwing predicate. -/
def filterE (p : Record → Except String Bool) : List Record → Except String (List Record)
  | [] => .ok []
  | r :: rest => do
    let b ← p r
    let t ← filterE p rest
    .ok (if b then r :: t else t)

/-- The projection step of `search`: keep only the selected fields. -/
def projectRecord (r : Record) (fields : List String) : Record :=
  fields.map (fun f => (f, if hasDot f then getNestedValue r f else lookupD r f))

/-- The output of `search`. -/
inductive SearchResult where
  | showFields : List String → SearchResult
  | res : Nat → List Record → Option (List String) → SearchResult
deriving DecidableEq, Repr

/-- `search(queryParams)`.  The show-fields directive sorts `availableFields`
in place, which is the returned state update; a query never touches state. -/
def search (st : EngineState) (p : QueryParams) : Except String (EngineState × SearchResult) :=
  match p with
  | .showFields =>
    match st.availableFields with
    | none => .error "TypeError: cannot read sort of undefined"
    | some fs =>
      let sorted := fs.insertionSort (· ≤ ·)
      .ok ({ st with availableFields := some sorted }, .showFields sorted)
  | .query criteria sel => do
    let results ←
      if criteria ≠ [] then filterE (fun r => evalAll r criteria) st.customers
      else pure st.customers
    match sel with
    | some fields =>
      .ok (st, .res results.length (results.map (projectRecord · fields)) (some fields))
    | none => .ok (st, .res results.length results none)

/-! ### The query parser -/

def isWordDot (c : Char) : Bool :=
  isWordChar c || c == '.'

/-- The run of word/dot characters forms a valid `\w+(\.\w+)*` name. -/
def validDotted (l : List Char) : Bool :=
  l ≠ [] && (splitCharAux '.' l []).all (fun seg => seg ≠ [] && seg.all isWordChar)

/-- `^(\w+(?:\.\w+)*):(.+)$` : the field/value split of the colon form. -/
def colonMatch (q : String) : Option (String × String) :=
  let l := q.data
  let fld := l.takeWhile isWordDot
  let rest := l.dropWhile isWordDot
  if validDotted fld then
    match rest with
    | ':' :: v => if v ≠ [] then some (⟨fld⟩, ⟨v⟩) else none
    | _ => none
  else none

/-- `^(\w+(?:\.\w+)*)\s*=\s*(.+)$` : the equals form.  The trailing `\s*` is
greedy but backs off one character when `(.+)` would otherwise be empty. -/
def equalsMatch (q : String) : Option (String × String) :=
  let l := q.data
  let fld := l.takeWhile isWordDot
  let rest := l.dropWhile isWordDot
  if validDotted fld then
    match rest.dropWhile isWs with
    | '=' :: v =>
      let v' := v.dropWhile isWs
      if v' ≠ [] then some (⟨fld⟩, ⟨v'⟩)
      else
        match v.getLast? with
        | some c => some (⟨fld⟩, ⟨[c]⟩)
        | none => none
    | _ => none
  else none

/-- Case-insensitive prefix test against a lowercase pattern. -/
def ciPrefix : List Char → List Char → Bool
  | [], _ => true
  | _ :: _, [] => false
  | p :: ps, c :: cs => p == c.toLower && ciPrefix ps cs

/-- First alternative that matches at the head; returns the remainder. -/
def anyPre : List (List Char) → List Char → Option (List Char)
  | [], _ => none
  | p :: ps, l => if ciPrefix p l then some (l.drop p.length) else anyPre ps l

def sufHere (sufs : List (List Char)) (l : List Char) : Bool :=
  sufs.any (fun sf => ciPrefix sf l)

/-- Greedy `(.*)` capture: the longest prefix whose remainder starts with one
of the suffix alternatives. -/
def capTo (sufs : List (List Char)) : List Char → Option (List Char)
  | [] => if sufHere sufs [] then some [] else none
  | c :: cs =>
    match capTo sufs cs with
    | some cap => some (c :: cap)
    | none => if sufHere sufs (c :: cs) then some [] else none

/-- Leftmost match of `PRE (.*) SUF`: scan for the first start position whose
prefix and (greedy) suffix both fit. -/
def scanPS (pres sufs : List (List Char)) : List Char → Option (List Char)
  | [] =>
    match anyPre pres [] with
    | some rest => capTo sufs rest
    | none => none
  | c :: cs =>
    (match anyPre pres (c :: cs) with
     | some rest => capTo sufs rest
     | none => none) <|> scanPS pres sufs cs

/-- Leftmost match of `PRE (?:all )?(.*) SUF` (the tech-client patterns). -/
def scanTech (pre : List Char) (sufs : List (List Char)) : List Char → Option (List Char)
  | [] => none
  | c :: cs =>
    (if ciPrefix pre (c :: cs) then
       let rest := (c :: cs).drop pre.length
       (if ciPrefix "all ".data rest then capTo sufs (rest.drop 4) else none) <|> capTo sufs rest
     else none) <|> scanTech pre sufs cs

/-- Leftmost match of `PRE \$? CHARSET+` (the revenue/growth patterns). -/
def scanNum (pres : List (List Char)) (dollar : Bool) (allowed : Char → Bool) :
    List Char → Option (List Char)
  | [] => none
  | c :: cs =>
    (match anyPre pres (c :: cs) with
     | some rest =>
       let rest' := if dollar && rest.head? == some '$' then rest.tail else rest
       let run := rest'.takeWhile allowed
       if run ≠ [] then some run else none
     | none => none) <|> scanNum pres dollar allowed cs

/-- One natural-language pattern of the ordered template list. -/
inductive NLPat where
  | plain (pres : List String) (sufs : List String) (fieldName : String)
  | noSuf (pres : List String) (fieldName : String)
  | tech (pre : String) (sufs : List String) (fieldName : String)
  | revenue (pres : List String)
  | growth (pres : List String)

/-- The `naturalLanguagePatterns` array, in source order. -/
def naturalLanguagePatterns : List NLPat :=
  [.plain ["show me all companies in ", "show me all accounts in "]
          [" branch", " territory"] "branch_description",
   .plain ["find companies in ", "find accounts in "]
          [" branch", " territory"] "branch_description",
   .plain ["companies in ", "accounts in "]
          [" branch", " territory"] "branch_description",
   .plain ["show me all companies in ", "show me all accounts in "]
          [" coverage"] "coverage_name",
   .plain ["find companies in ", "find accounts in "] [" coverage"] "coverage_name",
   .plain ["companies in ", "accounts in "] [" coverage"] "coverage_name",
   .revenue ["show me companies with revenue over ", "show me accounts with revenue over "],
   .revenue ["find companies with revenue over ", "find accounts with revenue over "],
   .revenue ["companies with revenue over ", "accounts with revenue over "],
   .growth ["show me companies with growth over ", "show me accounts with growth over "],
   .growth ["find companies with growth over ", "find accounts with growth over "],
   .growth ["companies with growth over ", "accounts with growth over "],
   .plain ["show me companies with ", "show me accounts with "] [" product"] "products",
   .plain ["find companies with ", "find accounts with "] [" product"] "products",
   .plain ["companies with ", "accounts with "] [" product"] "products",
   .noSuf ["who uses "] "products",
   .noSuf ["which companies use ", "which accounts use "] "products",
   .tech "show me " [" tech clients", " tech companies"] "tech_client",
   .tech "find " [" tech clients", " tech companies"] "tech_client",
   .plain ["show me companies in ", "show me accounts in "] [" industry"] "industry_description",
   .plain ["find companies in ", "find accounts in "] [" industry"] "industry_description",
   .plain ["companies in ", "accounts in "] [" industry"] "industry_description"]

/-- The raw `match[1]` capture of one pattern against the query. -/
def nlTry (q : String) : NLPat → Option (List Char)
  | .plain pres sufs _ => scanPS (pres.map String.data) (sufs.map String.data) q.data
  | .noSuf pres _ => scanPS (pres.map String.data) [[]] q.data
  | .tech pre sufs _ => scanTech pre.data (sufs.map String.data) q.data
  | .revenue pres => scanNum (pres.map String.data) true (fun c => c.isDigit || c == ',') q.data
  | .growth pres => scanNum (pres.map String.data) false (fun c => c.isDigit || c == '.') q.data

/-- The criterion a successful pattern produces. -/
def nlCrit (p : NLPat) (cap : List Char) : Criterion :=
  match p with
  | .plain _ _ f => ⟨f, .s (trimStr ⟨cap⟩), none⟩
  | .noSuf _ f => ⟨f, .s (trimStr ⟨cap⟩), none⟩
  | .tech _ _ f => ⟨f, .s (trimStr ⟨cap⟩), none⟩
  | .revenue _ =>
    match jsParseFloat ⟨cap.filter (fun c => c ≠ ',')⟩ with
    | some t => ⟨"revenue_2024", .n t, some ">="⟩
    | none => ⟨"revenue_2024", .nan, some ">="⟩
  | .growth _ =>
    match jsParseFloat ⟨cap⟩ with
    | some t => ⟨"growth", .n t, some ">="⟩
    | none => ⟨"growth", .nan, some ">="⟩

def nlParseAux (q : String) : List NLPat → Option Criterion
  | [] => none
  | p :: ps =>
    match nlTry q p with
    | some cap => if cap ≠ [] then some (nlCrit p cap) else nlParseAux q ps
    | none => nlParseAux q ps

/-- The natural-language pattern pass: first pattern with a truthy `match[1]`. -/
def nlParse (q : String) : Option Criterion :=
  nlParseAux q naturalLanguagePatterns

/-! ### The select/where token loop -/

def findMapping (part : String) : Option String :=
  (FIELD_MAPPINGS.find? (fun e => e.1 == part)).map (·.2)

def cleanStr (s : String) : String :=
  cleanValue (.str s)

/-- The value token, after quote-pair stripping and the truthiness check. -/
def loopValue : Option String → Option String
  | none => none
  | some v0 =>
    let v := stripPairQuotes v0
    if v == "" then none else some v

/-- Add to the `selectedFields` set (insertion order preserved). -/
def addSel (sels : List String) (f : String) : List String :=
  if sels.contains f then sels else sels ++ [f]

/-- The direct-field lookup of the criteria mode: exact name first, then the
case-insensitive (`cleanValue`) comparison. -/
def directField (fs : List String) (part : String) : Option String :=
  match fs.find? (fun f => f == part) with
  | some d => some d
  | none => fs.find? (fun f => cleanStr f == part)

/-- The token loop of `parseQuery` (the `for (; i < parts.length; i++)` body):
select-mode field collection and criteria-mode field/value pairing.  The
fall-through from a recognised alias token with a missing/empty value token to
the direct-field check mirrors the `foundField` flag of the source. -/
def parseLoopGo (af : Option (List String)) :
    Nat → Bool → List String → List Criterion → List String → Except String QueryParams
  | _, _, [], crits, sels =>
    .ok (.query crits (if sels.isEmpty then none else some sels))
  | 0, _, _ :: _, crits, sels =>
    -- out of fuel: unreachable, every iteration consumes at least one token
    .ok (.query crits (if sels.isEmpty then none else some sels))
  | fuel + 1, selMode, p :: rest, crits, sels =>
    let part := lowerStr p
    if part == "fields" || part == "list fields" || part == "show fields" then
      .ok .showFields
    else if selMode then
      if part == "where" then parseLoopGo af fuel false rest crits sels
      else if part == "from" then parseLoopGo af fuel true rest crits sels
      else
        match findMapping part with
        | some mf => parseLoopGo af fuel true rest crits (addSel sels mf)
        | none =>
          match af with
          | none => .error "TypeError: cannot read find of undefined"
          | some fs =>
            match fs.find? (fun f => cleanStr f == part || f == part) with
            | some mf => parseLoopGo af fuel true rest crits (addSel sels mf)
            | none => parseLoopGo af fuel true rest crits (addSel sels part)
    else
      match rest with
      | [] =>
        -- no value token: neither the alias nor the direct check can push,
        -- and the loop ends after this iteration
        .ok (.query crits (if sels.isEmpty then none else some sels))
      | v0 :: rest' =>
        match findMapping part, loopValue (some v0) with
        | some fk, some v =>
          parseLoopGo af fuel false rest' (crits ++ [⟨fk, .s v, none⟩]) sels
        | _, _ =>
          match af with
          | some fs =>
            match directField fs part, loopValue (some v0) with
            | some d, some v =>
              parseLoopGo af fuel false rest' (crits ++ [⟨d, .s v, none⟩]) sels
            | _, _ => parseLoopGo af fuel false rest crits sels
          | none => parseLoopGo af fuel false rest crits sels

/-- No quote characters and no `select`/`where` anywhere in the query. -/
def noQuoteSelectWhere (q : String) : Bool :=
  !jsIncludes q "\"" && !jsIncludes q "'" &&
  !jsIncludes (lowerStr q) "select" && !jsIncludes (lowerStr q) "where"

/-- The tail of `parseQuery` after the simple forms: natural-language
patterns, then the select/where token loop. -/
def parseTail (af : Option (List String)) (query : String) : Except String QueryParams :=
  match nlParse query with
  | some crit => .ok (.query [crit] none)
  | none =>
    match splitQA query with
    | [] => parseLoopGo af 1 false [] [] []
    | p0 :: rest =>
      if lowerStr p0 == "select" then parseLoopGo af (rest.length + 1) true rest [] []
      else parseLoopGo af (rest.length + 2) false (p0 :: rest) [] []

/-- `parseQuery(query)`: directive check, colon form, equals form, bare
two-token form, natural-language patterns, select/where loop. -/
def parseQuery (af : Option (List String)) (query : String) : Except String QueryParams :=
  if lowerStr query == "show fields" || lowerStr query == "fields" ||
     lowerStr query == "list fields" then
    .ok .showFields
  else
    match colonMatch query with
    | some (f, v) =>
      .ok (.query [⟨trimStr f, .s (stripEdgeQuotes (trimStr v)), none⟩] none)
    | none =>
      match equalsMatch query with
      | some (f, v) =>
        .ok (.query [⟨trimStr f, .s (stripEdgeQuotes (trimStr v)), none⟩] none)
      | none =>
        if noQuoteSelectWhere query then
          match splitWs query with
          | [a, b] => .ok (.query [⟨trimStr a, .s (trimStr b), none⟩] none)
          | _ => parseTail af query
        else parseTail af query

/-! ### The result formatter -/

/-- `typeof value` (arrays are not modelled). -/
def jsTypeof : Value → String
  | .str _ => "string"
  | .num _ => "number"
  | .boolean _ => "boolean"
  | .null => "object"
  | .undefined => "undefined"
  | .obj _ => "object"

/-- `Object.entries(value)` (string values expose their characters). -/
def entriesOf : Value → List (String × Value)
  | .obj o => o
  | .str s => (s.data.enum.map (fun p => (natToStr p.1, Value.str ⟨[p.2]⟩)))
  | _ => []

/-- The static field description table of `getFieldDescription`. -/
def fieldDescriptions : List (String × String) :=
  [("name", "Company name"),
   ("tech_client", "Technical client status"),
   ("client_type_overwrite", "Client type"),
   ("coverage_name", "Coverage area name"),
   ("coverage_name_normalized", "Normalized coverage name"),
   ("coverage_client_type", "Coverage client type"),
   ("coverage_client_subtype", "Coverage client subtype"),
   ("branch_description", "Branch description"),
   ("sub_branch_description", "Sub-branch description"),
   ("sub_industry_description", "Sub-industry description"),
   ("industry_description", "Industry description"),
   ("sector", "Business sector"),
   ("employee_count", "Number of employees"),
   ("it_spend_estimate", "Estimated IT spending"),
   ("company_size", "Company size category"),
   ("city", "City location"),
   ("state", "State location"),
   ("revenue_2024", "2024 revenue"),
   ("revenue_2023", "2023 revenue"),
   ("revenue_2022", "2022 revenue"),
   ("growth", "Year-over-year growth percentage"),
   ("top_data_ai_business_partner", "Top Data & AI Business Partner"),
   ("top_it_auto_app_mod_business_partner", "Top IT Automation & App Modernization Partner"),
   ("key_bp", "Key business partner"),
   ("products", "Products used by the company"),
   ("clean_products", "Cleaned product names"),
   ("original", "Original data fields before cleaning"),
   ("URN NAME", "Company name (original)"),
   ("Tech Client", "Technical client status (original)"),
   ("Client Type Overwrite", "Client type (original)"),
   ("Cov Name 1H25", "Coverage name for 1H 2025 (original)"),
   ("BRNCH_DSCR 1H25", "Branch description for 1H 2025 (original)"),
   ("SUB_BRNCH_DSCR 1H25", "Sub-branch description for 1H 2025 (original)"),
   ("PRMRY ST PROV NAME", "Primary state/province (original)"),
   ("Prmry City Name", "Primary city name (original)"),
   ("TOTAL IBM REV 2024", "2024 total IBM revenue (original)"),
   ("TOTAL IBM REV 2023", "2023 total IBM revenue (original)"),
   ("TOTAL IBM REV 2022", "2022 total IBM revenue (original)")]

def getFieldDescription (field : String) : String :=
  match fieldDescriptions.find? (fun e => e.1 == field) with
  | some e => e.2
  | none => "No description available"

def formatFieldExample (field : String) (_v : Value) : String :=
  if field == "name" || field == "URN NAME" then field ++ ":\"COMPANY NAME\""
  else if field == "city" || field == "Prmry City Name" then field ++ ":Atlanta"
  else if field == "state" || field == "PRMRY ST PROV NAME" then field ++ ":US-GA"
  else if field == "sector" then field ++ ":Industrial"
  else if jsIncludes field "revenue" || jsIncludes field "REV" then field ++ ":10000"
  else if field == "growth" then field ++ ":5.02"
  else if jsIncludes field "product" then field ++ ":WebSphere"
  else field ++ ":\"value\""

/-- One row of the field guide. -/
structure GuideEntry where
  field : String
  type : String
  description : String
  exampleQuery : String

/-- `generateFieldGuide`, driven by the first customer.  The JavaScript
`localeCompare` ordering is approximated by the standard string order. -/
def generateFieldGuide (customers : List Record) : String :=
  match customers with
  | [] => "No data available to generate field guide."
  | customer :: _ =>
    let top : List GuideEntry :=
      (customer.filter (fun e =>
          !(e.1 == "original" || e.1 == "products" || e.1 == "clean_products"))).map
        (fun e =>
          { field := e.1
            type := if e.2 = .null then "null" else jsTypeof e.2
            description := getFieldDescription e.1
            exampleQuery := formatFieldExample e.1 e.2 })
    let orig : List GuideEntry :=
      if truthy (lookupD customer "original") then
        ((entriesOf (lookupD customer "original")).filter (fun e => e.1 ≠ "")).map
          (fun e =>
            { field := "original." ++ e.1
              type := jsTypeof e.2
              description := getFieldDescription e.1
              exampleQuery := formatFieldExample e.1 e.2 })
      else []
    let prod : List GuideEntry :=
      if truthy (lookupD customer "products") then
        [{ field := "products"
           type := "object"
           description := "Product usage information"
           exampleQuery := "products:MQ or products:\"WebSphere Application Server\"" }]
      else []
    let fields := (top ++ orig ++ prod).insertionSort (fun a b => a.field ≤ b.field)
    let header := "FIELD GUIDE:\n\nFIELD NAME | TYPE | DESCRIPTION | EXAMPLE QUERY\n" ++
      "----------------------------------------------------------------\n"
    fields.foldl
      (fun acc f => acc ++ f.field ++ " | " ++ f.type ++ " | " ++ f.description ++ " | " ++
        f.exampleQuery ++ "\n")
      header

/-- Insert thousands separators, as `toLocaleString` does for integers. -/
def groupChars (l : List Char) : List Char :=
  ((l.reverse.toChunks 3).intersperse [','].reverse).flatten.reverse

/-- `Number.prototype.toLocaleString` for the integral values the claims
exercise; non-integral rationals fall back to the plain rendering. -/
def toLocale (q : Rat) : String :=
  if q.den = 1 then
    if q.num < 0 then "-" ++ ⟨groupChars (natChars q.num.natAbs)⟩
    else ⟨groupChars (natChars q.num.natAbs)⟩
  else ratToStr q

/-- `Number(value).toLocaleString()` (`NaN` prints as `"NaN"`). -/
def toLocaleOrNaN (v : Value) : String :=
  match jsNumber v with
  | some q => toLocale q
  | none => "NaN"

/-- `value || 'N/A'`. -/
def jsOrNA (v : Value) : Value :=
  if truthy v then v else .str "N/A"

/-- Increment the count of a breakdown key, preserving insertion order. -/
def bump : List (String × Nat) → String → List (String × Nat)
  | [], k => [(k, 1)]
  | (k', n) :: t, k => if k' == k then (k', n + 1) :: t else (k', n) :: bump t k

/-- Aggregates of the summary block. -/
structure Totals where
  revenue2024 : Rat := 0
  revenue2023 : Rat := 0
  revenue2022 : Rat := 0
  sectors : List (String × Nat) := []
  techStatus : List (String × Nat) := []
  industries : List (String × Nat) := []

/-- The `results.reduce` accumulation of `formatResults`. -/
def accTotals (acc : Totals) (c : Record) : Totals :=
  { revenue2024 := ratAdd acc.revenue2024 ((jsNumber (lookupD c "revenue_2024")).getD 0)
    revenue2023 := ratAdd acc.revenue2023 ((jsNumber (lookupD c "revenue_2023")).getD 0)
    revenue2022 := ratAdd acc.revenue2022 ((jsNumber (lookupD c "revenue_2022")).getD 0)
    sectors := bump acc.sectors (jsToString (lookupD c "sector"))
    techStatus := bump acc.techStatus (jsToString (jsOrNA (lookupD c "tech_client")))
    industries := bump acc.industries (jsToString (jsOrNA (lookupD c "industry_description"))) }

/-- A breakdown sorted by descending count (stable, like the JS sort). -/
def sortDesc (l : List (String × Nat)) : List (String × Nat) :=
  l.insertionSort (fun a b => b.2 ≤ a.2)

def breakdownLines (l : List (String × Nat)) (fallback : Bool) : String :=
  (sortDesc l).foldl
    (fun acc e =>
      let k := if fallback && e.1 == "" then "N/A" else e.1
      acc ++ k ++ ": " ++ natToStr e.2 ++ " customers\n")
    ""

/-! The per-customer detail lines of `formatResults`, split so the rendering of
each field can be reasoned about separately. -/

def fmtNameLine (c : Record) : String :=
  "Name: " ++ jsToString (lookupD c "name") ++ "\n"

def fmtLocationLine (c : Record) : String :=
  "Location: " ++ jsToString (lookupD c "city") ++ ", " ++ jsToString (lookupD c "state") ++ "\n"

def fmtCoverageLine (c : Record) : String :=
  "Coverage: " ++ jsToString (jsOrNA (lookupD c "coverage_name")) ++ "\n"

def fmtCoverageTypeLine (c : Record) : String :=
  "Coverage Type: " ++ jsToString (jsOrNA (lookupD c "coverage_client_type")) ++ "\n"

def fmtCoverageSubtypeLine (c : Record) : String :=
  "Coverage Subtype: " ++ jsToString (jsOrNA (lookupD c "coverage_client_subtype")) ++ "\n"

def fmtBranchLine (c : Record) : String :=
  "Branch: " ++ jsToString (jsOrNA (lookupD c "branch_description")) ++ "\n"

def fmtSubBranchLine (c : Record) : String :=
  "Sub-Branch: " ++ jsToString (jsOrNA (lookupD c "sub_branch_description")) ++ "\n\n"

def fmtTechLine (c : Record) : String :=
  "Tech Client Status: " ++ jsToString (jsOrNA (lookupD c "tech_client")) ++ "\n"

def fmtIndustryLine (c : Record) : String :=
  "Industry: " ++ jsToString (jsOrNA (lookupD c "industry_description")) ++ "\n"

def fmtSectorLine (c : Record) : String :=
  "Sector: " ++ jsToString (jsOrNA (lookupD c "sector")) ++ "\n"

def fmtRevenueLine (year : String) (c : Record) (key : String) : String :=
  "  " ++ year ++ ": $" ++ toLocaleOrNaN (lookupD c key) ++ "\n"

def fmtGrowthLine (c : Record) : String :=
  let g := lookupD c "growth"
  "Growth: " ++ (if truthy g then jsToString g ++ "%" else "N/A") ++ "\n"

def fmtProductsBlock (c : Record) : String :=
  let pv := lookupD c "products"
  if truthy pv && (jsKeys pv).length > 0 then
    let entries := (entriesOf pv).insertionSort
      (fun a b => (jsNumber b.2).getD 0 ≤ (jsNumber a.2).getD 0)
    entries.foldl
      (fun acc e => acc ++ "  - " ++ e.1 ++ ": " ++ jsToString e.2 ++ " instances\n")
      "\nProducts:\n"
  else ""

/-- One customer's detail block. -/
def customerDetail (c : Record) (index : Nat) : String :=
  "CUSTOMER " ++ natToStr (index + 1) ++ ":\n" ++
  fmtNameLine c ++ fmtLocationLine c ++
  fmtCoverageLine c ++ fmtCoverageTypeLine c ++ fmtCoverageSubtypeLine c ++
  fmtBranchLine c ++ fmtSubBranchLine c ++
  fmtTechLine c ++ fmtIndustryLine c ++ fmtSectorLine c ++
  "Revenue:\n" ++
  fmtRevenueLine "2024" c "revenue_2024" ++
  fmtRevenueLine "2023" c "revenue_2023" ++
  fmtRevenueLine "2022" c "revenue_2022" ++
  fmtGrowthLine c ++ fmtProductsBlock c ++
  "\n-------------------\n\n"

/-- `formatResults(searchResults)`. -/
def formatResults (customers : List Record) (sr : SearchResult) : String :=
  match sr with
  | .showFields _ => generateFieldGuide customers
  | .res count results _ =>
    if count = 0 then "No customers found matching the criteria."
    else
      let totals := results.foldl accTotals {}
      let summary :=
        "=== SUMMARY (" ++ natToStr count ++ " customers) ===\n\n" ++
        "Revenue Summary:\n" ++
        "2024: $" ++ toLocale totals.revenue2024 ++ "\n" ++
        "2023: $" ++ toLocale totals.revenue2023 ++ "\n" ++
        "2022: $" ++ toLocale totals.revenue2022 ++ "\n\n" ++
        "Sector Breakdown:\n" ++ breakdownLines totals.sectors true ++ "\n" ++
        "Tech Client Status:\n" ++ breakdownLines totals.techStatus false ++ "\n" ++
        "Industry Breakdown:\n" ++ breakdownLines totals.industries false ++ "\n"
      let details :=
        (results.enum.map (fun p => customerDetail p.2 p.1)).foldl (· ++ ·)
          "=== CUSTOMER DETAILS ===\n\n"
      summary ++ details

/-- One full query round: parse, search (with its state update), format. -/
def runQuery (st : EngineState) (q : String) : Except String (EngineState × String) := do
  let params ← parseQuery st.availableFields q
  let (st', res) ← search st params
  .ok (st', formatResults st'.customers res)

/-! ### Demonstration data for the witnesses and counterexamples -/

/-- The sample record of the specification's scenario section. -/
def acmeRecord : Record :=
  [("name", .str "Acme Corp"), ("city", .str "Atlanta"), ("sector", .str "Financial Services"),
   ("revenue_2024", .num 50000), ("revenue_2023", .num 40000),
   ("products", .obj [("mq", .boolean true)])]

/-! ### General lemmas about the embedding -/

theorem search_preserves_customers {st : EngineState} {p : QueryParams}
    {st' : EngineState} {r : SearchResult} (h : search st p = .ok (st', r)) :
    st'.customers = st.customers := by
  cases p with
  | showFields =>
    cases haf : st.availableFields with
    | none => simp [search, haf] at h
    | some fs =>
      simp only [search, haf] at h
      cases h
      rfl
  | query crits sel =>
    simp only [search] at h
    split at h
    · cases hres : filterE (fun r => evalAll r crits) st.customers with
      | error e => rw [hres] at h; exact absurd h (by simp [Bind.bind, Except.bind])
      | ok rs =>
        rw [hres] at h
        simp only [Bind.bind, Except.bind] at h
        cases sel <;> simp_all
    · cases sel <;> (cases h; rfl)

/-- A filter whose predicate succeeds everywhere succeeds as a whole. -/
theorem filterE_ok {p : Record → Except String Bool} {g : Record → Bool}
    (l : List Record) (h : ∀ r ∈ l, p r = .ok (g r)) :
    filterE p l = .ok (l.filter g) := by
  induction l with
  | nil => rfl
  | cons a t ih =>
    have ha := h a (by simp)
    have ht := ih (fun r hr => h r (by simp [hr]))
    simp only [filterE, ha, ht, Bind.bind, Except.bind, List.filter]
    cases hg : g a <;> simp [hg]

theorem evalAll_single {r : Record} {c : Criterion} {b : Bool}
    (h : evalCriterion r c = .ok b) : evalAll r [c] = .ok b := by
  simp only [evalAll, Bind.bind, Except.bind, h]
  cases b <;> rfl

/-- Looking a key up in a keyed `map` over the key list gives its image. -/
theorem lookupD_map_self (F : List String) (g : String → Value) (f : String) (hf : f ∈ F) :
    lookupD (F.map fun x => (x, g x)) f = g f := by
  induction F with
  | nil => cases hf
  | cons x t ih =>
    by_cases hx : x = f
    · subst hx
      simp [lookupD, List.find?_cons_of_pos]
    · have hff : f ∈ t := by
        rcases List.mem_cons.mp hf with h | h
        · exact absurd h.symm hx
        · exact h
      unfold lookupD at *
      rw [List.map_cons, List.find?_cons_of_neg]
      · exact ih hff
      · simpa using hx

/-! ### The claims -/

/-- C1 (fail-open law): for every query string whose parse produces no
criteria and no projection, the search succeeds (no error) and returns the
full collection, so the result count equals the total number of records. -/
theorem c1_fail_open (st : EngineState) (q : String)
    (_hq : parseQuery st.availableFields q = .ok (.query [] none)) :
    search st (.query [] none) = .ok (st, .res st.customers.length st.customers none) := by
  rfl

/-- C1 witness: `"hello there world"` matches none of the recognized forms,
parses to no criteria and no projection, and the search returns all records. -/
theorem c1_fail_open_witness :
    parseQuery (mkEngine [acmeRecord]).availableFields "hello there world" =
      .ok (.query [] none) ∧
    search (mkEngine [acmeRecord]) (.query [] none) =
      .ok (mkEngine [acmeRecord],
        .res (mkEngine [acmeRecord]).customers.length (mkEngine [acmeRecord]).customers none) :=
  ⟨by decide, c1_fail_open (mkEngine [acmeRecord]) "hello there world" (by decide)⟩

/-- C9 (purity of the pipeline): parsing, searching and formatting leave the
loaded record collection unchanged — whatever the query string, the engine
state returned by a successful full round holds the identical customers list
(the only state the pipeline updates is the `availableFields` cache, which the
show-fields directive sorts in place). -/
theorem c9_pipeline_purity (st : EngineState) (q : String) (out : EngineState × String)
    (h : runQuery st q = .ok out) : out.1.customers = st.customers := by
  unfold runQuery at h
  cases hp : parseQuery st.availableFields q with
  | error e => rw [hp] at h; exact absurd h (by simp [Bind.bind, Except.bind])
  | ok params =>
    rw [hp] at h
    simp only [Bind.bind, Except.bind] at h
    cases hs : search st params with
    | error e => rw [hs] at h; cases h
    | ok pr =>
      obtain ⟨st', res⟩ := pr
      rw [hs] at h
      cases h
      exact search_preserves_customers hs

/-- C9 witness: a concrete full round over the sample collection. -/
theorem c9_pipeline_purity_witness :
    runQuery (mkEngine [acmeRecord]) "city:Marietta" =
      .ok (mkEngine [acmeRecord], "No customers found matching the criteria.") ∧
    ((mkEngine [acmeRecord], "No customers found matching the criteria.") :
        EngineState × String).1.customers = (mkEngine [acmeRecord]).customers :=
  ⟨by decide,
   c9_pipeline_purity (mkEngine [acmeRecord]) "city:Marietta" _ (by decide)⟩

/-- C6 counterexample: projecting twice onto a dotted nested path is NOT the
same as projecting once — the first projection stores the dotted name as a
flat key, so the second projection's nested walk finds nothing and stores
`undefined`. -/
theorem c6_projection_idem_counterexample :
    projectRecord (projectRecord [("a", Value.obj [("b", Value.num 5)])] ["a.b"]) ["a.b"] ≠
      projectRecord [("a", Value.obj [("b", Value.num 5)])] ["a.b"] := by
  decide

/-- C6 (amended): projection is idempotent for every non-empty field set that
contains no dotted nested path. -/
theorem c6_projection_idem_amended (r : Record) (F : List String)
    (hdot : ∀ f ∈ F, hasDot f = false) (_hne : F ≠ []) (_hnd : F.Nodup) :
    projectRecord (projectRecord r F) F = projectRecord r F := by
  unfold projectRecord
  apply List.map_congr_left
  intro f hf
  rw [hdot f hf]
  simp only [Bool.false_eq_true, if_false]
  rw [lookupD_map_self F (fun x => if hasDot x then getNestedValue r x else lookupD r x) f hf]
  rw [hdot f hf]
  simp

/-- C6 witness: the amended idempotence at a concrete record and field set. -/
theorem c6_projection_idem_amended_witness :
    projectRecord (projectRecord acmeRecord ["name", "city"]) ["name", "city"] =
      projectRecord acmeRecord ["name", "city"] :=
  c6_projection_idem_amended acmeRecord ["name", "city"] (by decide) (by decide) (by decide)

/-- C5 counterexample: on a heterogeneous two-record collection, the
show-fields directive returns only the FIRST record's attribute names — the
attribute `"b"`, observable on the second record, is missing from the list
(the claim says all attribute names observable across the records appear). -/
theorem c5_show_fields_counterexample :
    parseQuery (mkEngine [[("a", Value.str "1")], [("b", Value.str "2")]]).availableFields
        "show fields" = .ok .showFields ∧
    search (mkEngine [[("a", Value.str "1")], [("b", Value.str "2")]]) .showFields =
      .ok ({ customers := [[("a", Value.str "1")], [("b", Value.str "2")]],
             availableFields := some ["a"] }, .showFields ["a"]) ∧
    lookupD [("b", Value.str "2")] "b" ≠ .undefined ∧
    "b" ∉ ["a"] := by
  refine ⟨by decide, by decide, by decide, by decide⟩

/-- C5 (amended): on a non-empty collection whose first record has at least
one attribute, the show-fields directive succeeds (never throws) and returns a
sorted, non-empty permutation of the FIRST record's observable attribute names
(all nesting depths, dot-joined). -/
theorem c5_show_fields_amended (r0 : Record) (rest : List Record) (hne : r0 ≠ []) :
    ∃ fs, search (mkEngine (r0 :: rest)) .showFields =
        .ok ({ customers := r0 :: rest, availableFields := some fs }, .showFields fs) ∧
      fs.Perm (getAvailableFields r0) ∧ fs.Sorted (· ≤ ·) ∧ fs ≠ [] := by
  refine ⟨(getAvailableFields r0).insertionSort (· ≤ ·), rfl,
    List.perm_insertionSort _ _, List.sorted_insertionSort _ _, ?_⟩
  have hlen : getAvailableFields r0 ≠ [] := by
    match r0, hne with
    | (k, v) :: t, _ => simp [getAvailableFields, gafEntries]
  intro hcon
  exact hlen (List.Perm.eq_nil ((List.perm_insertionSort _ _).symm.trans (by rw [hcon])))

/-- C5 witness: the amended statement at a heterogeneous concrete collection. -/
theorem c5_show_fields_amended_witness :
    ∃ fs, search (mkEngine ([("a", Value.str "1")] :: [[("b", Value.str "2")]])) .showFields =
        .ok ({ customers := [("a", Value.str "1")] :: [[("b", Value.str "2")]],
               availableFields := some fs }, .showFields fs) ∧
      fs.Perm (getAvailableFields [("a", Value.str "1")]) ∧ fs.Sorted (· ≤ ·) ∧ fs ≠ [] :=
  c5_show_fields_amended [("a", Value.str "1")] [[("b", Value.str "2")]] (by decide)

/-- C8 counterexample: a record with no `name` attribute renders as the
literal `"Name: undefined"` in its detail entry (and in the full formatted
report), not as the `"N/A"` placeholder the claim requires for every missing
field. -/
theorem c8_missing_field_counterexample :
    lookupD ([] : Record) "name" = .undefined ∧
    fmtNameLine ([] : Record) = "Name: undefined\n" ∧
    jsIncludes (customerDetail ([] : Record) 0) "Name: undefined" = true ∧
    jsIncludes (fmtNameLine ([] : Record)) "N/A" = false := by
  refine ⟨by decide, by decide, by decide, by decide⟩

/-- C8 (amended): the formatter renders a missing (falsy) value as the
literal `"N/A"` for the coverage, branch, tech-client, industry, sector and
growth fields of a detail entry; but a missing name renders as JavaScript's
`"undefined"` and a missing revenue figure as `"NaN"`, not `"N/A"`. -/
theorem c8_missing_field_na_amended (c : Record) :
    (truthy (lookupD c "coverage_name") = false → fmtCoverageLine c = "Coverage: N/A\n") ∧
    (truthy (lookupD c "coverage_client_type") = false →
      fmtCoverageTypeLine c = "Coverage Type: N/A\n") ∧
    (truthy (lookupD c "coverage_client_subtype") = false →
      fmtCoverageSubtypeLine c = "Coverage Subtype: N/A\n") ∧
    (truthy (lookupD c "branch_description") = false → fmtBranchLine c = "Branch: N/A\n") ∧
    (truthy (lookupD c "sub_branch_description") = false →
      fmtSubBranchLine c = "Sub-Branch: N/A\n\n") ∧
    (truthy (lookupD c "tech_client") = false → fmtTechLine c = "Tech Client Status: N/A\n") ∧
    (truthy (lookupD c "industry_description") = false → fmtIndustryLine c = "Industry: N/A\n") ∧
    (truthy (lookupD c "sector") = false → fmtSectorLine c = "Sector: N/A\n") ∧
    (truthy (lookupD c "growth") = false → fmtGrowthLine c = "Growth: N/A\n") ∧
    (lookupD c "name" = .undefined → fmtNameLine c = "Name: undefined\n") ∧
    (jsNumber (lookupD c "revenue_2024") = none →
      fmtRevenueLine "2024" c "revenue_2024" = "  2024: $NaN\n") := by
  refine ⟨?_, ?_, ?_, ?_, ?_, ?_, ?_, ?_, ?_, ?_, ?_⟩ <;> intro h
  · simp [fmtCoverageLine, jsOrNA, h, jsToString]
  · simp [fmtCoverageTypeLine, jsOrNA, h, jsToString]
  · simp [fmtCoverageSubtypeLine, jsOrNA, h, jsToString]
  · simp [fmtBranchLine, jsOrNA, h, jsToString]
  · simp [fmtSubBranchLine, jsOrNA, h, jsToString]
  · simp [fmtTechLine, jsOrNA, h, jsToString]
  · simp [fmtIndustryLine, jsOrNA, h, jsToString]
  · simp [fmtSectorLine, jsOrNA, h, jsToString]
  · simp [fmtGrowthLine, h]
  · simp [fmtNameLine, h, jsToString]
  · simp [fmtRevenueLine, toLocaleOrNaN, h]

/-- C8 witness: the amended rendering rules at the empty record. -/
theorem c8_missing_field_na_amended_witness :
    fmtCoverageLine ([] : Record) = "Coverage: N/A\n" ∧
    fmtGrowthLine ([] : Record) = "Growth: N/A\n" ∧
    fmtNameLine ([] : Record) = "Name: undefined\n" ∧
    fmtRevenueLine "2024" ([] : Record) "revenue_2024" = "  2024: $NaN\n" :=
  have h := c8_missing_field_na_amended ([] : Record)
  ⟨h.1 (by decide), h.2.2.2.2.2.2.2.2.1 (by decide),
   h.2.2.2.2.2.2.2.2.2.1 (by decide), h.2.2.2.2.2.2.2.2.2.2 (by decide)⟩

/-- In select mode with an initialised field list, a `fields` token reached
before any `where` token makes the loop return the show-fields directive. -/
theorem parseLoopGo_fields_select (af : List String) :
    ∀ (fuel : Nat) (parts : List String) (crits : List Criterion) (sels : List String),
      "fields" ∈ (parts.map lowerStr).takeWhile (· ≠ "where") →
      parts.length < fuel →
      parseLoopGo (some af) fuel true parts crits sels = .ok .showFields := by
  intro fuel
  induction fuel with
  | zero => intro parts _ _ _ hlt; omega
  | succ f ih =>
    intro parts crits sels hf hlt
    match parts with
    | [] => simp at hf
    | p :: rest =>
      by_cases hfp : (lowerStr p == "fields" || lowerStr p == "list fields" ||
                      lowerStr p == "show fields") = true
      · simp only [parseLoopGo, hfp, if_true]
      · have hpf : lowerStr p ≠ "fields" := by
          intro hh; apply hfp; simp [hh]
        have hpw : lowerStr p ≠ "where" := by
          intro hh
          rw [List.map_cons, List.takeWhile_cons, if_neg (by simp [hh])] at hf
          simp at hf
        have hf' : "fields" ∈ (rest.map lowerStr).takeWhile (· ≠ "where") := by
          rw [List.map_cons, List.takeWhile_cons, if_pos (by simpa using hpw)] at hf
          rcases List.mem_cons.mp hf with h | h
          · exact absurd h.symm hpf
          · exact h
        have hlt' : rest.length < f := by simpa using Nat.lt_of_succ_lt_succ hlt
        simp only [parseLoopGo]
        rw [if_neg hfp, if_pos trivial, if_neg (by simpa using hpw)]
        split
        · exact ih rest crits sels hf' hlt'
        · split
          · exact ih rest crits _ hf' hlt'
          · split
            · exact ih rest crits _ hf' hlt'
            · exact ih rest crits _ hf' hlt'

/-- C10 counterexample: the query `"where city fields"` contains the bare
token `fields`, yet the parser consumes it as the VALUE of the preceding
`city` attribute token and returns a criteria query, not the show-fields
directive. -/
theorem c10_fields_token_counterexample :
    (splitQA "where city fields").contains "fields" = true ∧
    parseQuery (mkEngine [acmeRecord]).availableFields "where city fields" =
      .ok (.query [⟨"city", .s "fields", none⟩] none) ∧
    parseQuery (mkEngine [acmeRecord]).availableFields "where city fields" ≠
      .ok .showFields := by
  refine ⟨by decide, by decide, by decide⟩

/-- C10 (amended): when the token scan is reached (directive, colon, equals
and natural-language forms all fail), the query's first token is `select`, and
a `fields` token occurs among the following tokens before any `where`, the
parser discards everything and returns the show-fields directive — so a query
carrying both a `select` projection and subsequent criteria yields the field
guide instead of a filtered result. -/
theorem c10_fields_token_amended (af : List String) (q : String) (p0 : String)
    (rest : List String)
    (hdir : lowerStr q ≠ "show fields" ∧ lowerStr q ≠ "fields" ∧ lowerStr q ≠ "list fields")
    (hcolon : colonMatch q = none) (heq : equalsMatch q = none)
    (hnl : nlParse q = none)
    (hsel : jsIncludes (lowerStr q) "select" = true)
    (hsplit : splitQA q = p0 :: rest)
    (hp0 : lowerStr p0 = "select")
    (hf : "fields" ∈ (rest.map lowerStr).takeWhile (· ≠ "where")) :
    parseQuery (some af) q = .ok .showFields := by
  unfold parseQuery
  rw [if_neg (by simp [hdir.1, hdir.2.1, hdir.2.2])]
  rw [hcolon, heq]
  rw [if_neg (by simp [noQuoteSelectWhere, hsel])]
  unfold parseTail
  rw [hnl, hsplit]
  simp only [hp0, beq_self_eq_true, if_true]
  exact parseLoopGo_fields_select af (rest.length + 1) rest [] [] hf (by omega)

/-- C10 witness: a query with a `select` projection, criteria after `where`,
and a `fields` token, which returns the directive. -/
theorem c10_fields_token_amended_witness :
    parseQuery (some ["name", "city"]) "select name fields where city atlanta" =
      .ok .showFields :=
  c10_fields_token_amended ["name", "city"] "select name fields where city atlanta"
    "select" ["name", "fields", "where", "city", "atlanta"]
    ⟨by decide, by decide, by decide⟩ (by decide) (by decide) (by decide) (by decide)
    (by decide) (by decide) (by decide)

theorem jsIncludes_empty_of_ne (s : String) (h : s ≠ "") : jsIncludes "" s = false := by
  obtain ⟨l⟩ := s
  cases l with
  | nil => exact absurd rfl h
  | cons c t => rfl

theorem evalCriterion_unknown (r : Record) (c : Criterion)
    (hkey : ∀ e ∈ FIELD_MAPPINGS, e.1 ≠ c.field)
    (h1 : lookupD r c.field = .undefined)
    (h2 : getNestedValue r c.field = .undefined)
    (horig : truthy (lookupD r "original") = false)
    (hval : c.operator = none → cleanValue c.value.toValue ≠ "") :
    evalCriterion r c = .ok false := by
  have hname : c.field ≠ "name" := fun h => hkey ("name", "name") (by decide) h.symm
  have hcity : c.field ≠ "city" := fun h => hkey ("city", "city") (by decide) h.symm
  have hprod : c.field ≠ "products" := fun h => hkey ("products", "products") (by decide) h.symm
  have hgrowth : c.field ≠ "growth" := fun h => hkey ("growth", "growth") (by decide) h.symm
  have hloc : c.field ≠ "location" := fun h => hkey ("location", "location") (by decide) h.symm
  unfold evalCriterion
  cases hop : c.operator with
  | some op =>
    rw [h1]
    rfl
  | none =>
    rw [if_neg (by simp [hname]), if_neg (by simp [hcity])]
    by_cases hbc : (c.field == "branch_description" || c.field == "coverage_name") = true
    · rw [if_pos hbc]
      have hcs := hval hop
      have e1 : origField r "BRNCH_DSCR 1H25" = .str "" := by
        simp [origField, horig]
      have e2 : origField r "Cov Name 1H25" = .str "" := by
        simp [origField, horig]
      simp [h1, e1, e2, show cleanValue (orEmptyStr Value.undefined) = "" from rfl,
            show cleanValue (Value.str "") = "" from rfl, jsIncludes_empty_of_ne _ hcs]
    · rw [if_neg hbc]
      by_cases hdot : hasDot c.field = true
      · rw [if_pos hdot, h2]
        simp [matchesValue]
      · rw [if_neg hdot]
        by_cases hpc : (c.field == "products" || c.field == "clean_products") = true
        · rw [if_pos hpc, h1]
          simp [jsKeys]
        · rw [if_neg hpc]
          by_cases hrev : (c.field == "revenue_2024" || c.field == "revenue_2023" ||
              c.field == "revenue_2022" || c.field == "employee_count") = true
          · rw [if_pos hrev, h1]
            have : jsParseFloatV Value.undefined = none := by decide
            rw [this]
            cases critParseFloat c.value <;> rfl
          · rw [if_neg hrev, if_neg (by simp [hgrowth]), if_neg (by simp [hloc]), h1]
            simp [matchesValue]


/-- C7 counterexample: the attribute `branch_description` is no alias token
and is absent from every record, yet the reachable criterion with the empty
value (from the query `branch_description:""`) matches EVERY record instead of
none — the special-cased branch matching compares with `includes` against
`''`, which always succeeds. -/
theorem c7_unknown_attribute_counterexample :
    ("branch_description" ∉ FIELD_MAPPINGS.map Prod.fst) ∧
    (∀ r ∈ [[("name", Value.str "X")]], lookupD r "branch_description" = Value.undefined) ∧
    parseQuery (mkEngine [[("name", Value.str "X")]]).availableFields
        "branch_description:\"\"" =
      .ok (.query [⟨"branch_description", .s "", none⟩] none) ∧
    search (mkEngine [[("name", Value.str "X")]])
        (.query [⟨"branch_description", .s "", none⟩] none) =
      .ok (mkEngine [[("name", Value.str "X")]],
           .res 1 [[("name", Value.str "X")]] none) := by
  refine ⟨by decide, by decide, by decide, by decide⟩

/-- C7 (amended): a criterion whose attribute resolves to no alias token and
to no attribute present on any record (neither as a literal key nor through
the dotted walk), on records carrying no `original` sub-object, returns the
empty result set without error — for plain, dotted and operator-carrying
criteria alike — provided the criterion's value does not normalise to the
empty string (an empty value on the special-cased absent fields
`branch_description`/`coverage_name` matches every record instead). -/
theorem c7_unknown_attribute_amended (st : EngineState) (c : Criterion)
    (hkey : ∀ e ∈ FIELD_MAPPINGS, e.1 ≠ c.field)
    (h1 : ∀ r ∈ st.customers, lookupD r c.field = Value.undefined)
    (h2 : ∀ r ∈ st.customers, getNestedValue r c.field = Value.undefined)
    (horig : ∀ r ∈ st.customers, truthy (lookupD r "original") = false)
    (hval : c.operator = none → cleanValue c.value.toValue ≠ "") :
    search st (.query [c] none) = .ok (st, .res 0 [] none) := by
  have hev : ∀ r ∈ st.customers, evalAll r [c] = .ok ((fun _ => false) r) := fun r hr =>
    evalAll_single (evalCriterion_unknown r c hkey (h1 r hr) (h2 r hr) (horig r hr) hval)
  have hfil := filterE_ok st.customers hev
  simp only [search]
  rw [if_pos (by simp), hfil]
  simp only [Bind.bind, Except.bind, List.filter_false]
  rfl

/-- C7 witness: an unknown plain attribute with a non-empty value yields the
empty result on a concrete collection. -/
theorem c7_unknown_attribute_amended_witness :
    search (mkEngine [[("name", Value.str "X")]]) (.query [⟨"foo", .s "bar", none⟩] none) =
      .ok (mkEngine [[("name", Value.str "X")]], .res 0 [] none) :=
  c7_unknown_attribute_amended (mkEngine [[("name", Value.str "X")]])
    ⟨"foo", .s "bar", none⟩ (by decide) (by decide) (by decide) (by decide) (by decide)


/-- The value is a string. -/
def isStrVal : Value → Bool
  | .str _ => true
  | _ => false

def strOrEmpty : Value → String
  | .str s => s
  | _ => ""

/-- The canonical city string the matcher lowercases (`customer.city || ''`). -/
def cityStrOf (r : Record) : String :=
  strOrEmpty (orEmptyStr (lookupD r "city"))

/-- The original city spelling the matcher falls back to
(`customer.original['Prmry City Name']`, when truthy). -/
def origCityStrOf (r : Record) : String :=
  strOrEmpty (origField r "Prmry City Name")

/-- The city-matching rule of `search`, as a per-record predicate. -/
def cityPred (v : String) (r : Record) : Bool :=
  let sv := lowerStr v
  if sv == "atlanta" || sv == "\"atlanta\"" then
    lowerStr (cityStrOf r) == "atlanta" || lowerStr (origCityStrOf r) == "atlanta"
  else
    jsIncludes (lowerStr (cityStrOf r)) sv || jsIncludes (lowerStr (origCityStrOf r)) sv

theorem evalCriterion_city (r : Record) (v : String)
    (hc : isStrVal (orEmptyStr (lookupD r "city")) = true)
    (ho : isStrVal (origField r "Prmry City Name") = true) :
    evalCriterion r ⟨"city", .s v, none⟩ = .ok (cityPred v r) := by
  match hcv : orEmptyStr (lookupD r "city"), hc with
  | .str s1, _ =>
  match hov : origField r "Prmry City Name", ho with
  | .str s2, _ =>
    simp only [evalCriterion, cityPred, cityStrOf, origCityStrOf, hcv, hov, strOrEmpty,
      cvalLower, toLowerE, Bind.bind, Except.bind]
    by_cases h1 : (lowerStr v == "atlanta" || lowerStr v == "\"atlanta\"") = true
    · rw [if_pos h1, if_pos h1]
      by_cases h2 : (lowerStr s1 == "atlanta") = true
      · simp [h2]
      · simp [h2]
    · rw [if_neg h1, if_neg h1]
      by_cases h2 : jsIncludes (lowerStr s1) (lowerStr v) = true
      · simp [h2]
      · simp [h2]

/-- C4 counterexample: the criterion value `"atlanta"` WITH literal double
quotes (reachable from the query `city:""atlanta""`) is not the word
`atlanta` in any letter case, so the claim requires the substring rule — which
does not match the city `Atlanta` — yet the code applies the exact-equality
exception and returns the record. -/
theorem c4_city_atlanta_counterexample :
    parseQuery (mkEngine [[("city", Value.str "Atlanta")]]).availableFields
        "city:\"\"atlanta\"\"" =
      .ok (.query [⟨"city", .s "\"atlanta\"", none⟩] none) ∧
    lowerStr "\"atlanta\"" ≠ "atlanta" ∧
    jsIncludes (lowerStr "Atlanta") (lowerStr "\"atlanta\"") = false ∧
    search (mkEngine [[("city", Value.str "Atlanta")]])
        (.query [⟨"city", .s "\"atlanta\"", none⟩] none) =
      .ok (mkEngine [[("city", Value.str "Atlanta")]],
           .res 1 [[("city", Value.str "Atlanta")]] none) := by
  refine ⟨by decide, by decide, by decide, by decide⟩

/-- C4 (amended): for a single city criterion over records whose city values
(canonical and original spelling) are strings or absent, a record is in the
result iff: when the query value lowercases to `atlanta` OR to
`"atlanta"` (with literal quotes), its city or original city equals
`atlanta` case-insensitively (so `Johns Creek` is excluded); for every other
value, iff the lowercased query value is a substring of the lowercased city or
original city. -/
theorem c4_city_atlanta_amended (st : EngineState) (v : String)
    (hstr : ∀ r ∈ st.customers, isStrVal (orEmptyStr (lookupD r "city")) = true ∧
            isStrVal (origField r "Prmry City Name") = true) :
    ∃ rs, search st (.query [⟨"city", .s v, none⟩] none) = .ok (st, .res rs.length rs none) ∧
      ∀ r, r ∈ rs ↔ r ∈ st.customers ∧
        (if lowerStr v = "atlanta" ∨ lowerStr v = "\"atlanta\"" then
           lowerStr (cityStrOf r) = "atlanta" ∨ lowerStr (origCityStrOf r) = "atlanta"
         else jsIncludes (lowerStr (cityStrOf r)) (lowerStr v) = true ∨
              jsIncludes (lowerStr (origCityStrOf r)) (lowerStr v) = true) := by
  refine ⟨st.customers.filter (cityPred v), ?_, ?_⟩
  · have hev : ∀ r ∈ st.customers, evalAll r [⟨"city", .s v, none⟩] = .ok (cityPred v r) :=
      fun r hr => evalAll_single (evalCriterion_city r v (hstr r hr).1 (hstr r hr).2)
    have hfil := filterE_ok st.customers hev
    simp only [search]
    rw [if_pos (by simp), hfil]
    rfl
  · intro r
    rw [List.mem_filter]
    apply and_congr_right
    intro _
    by_cases hv : (lowerStr v == "atlanta" || lowerStr v == "\"atlanta\"") = true
    · have hv2 : lowerStr v = "atlanta" ∨ lowerStr v = "\"atlanta\"" := by simpa using hv
      rw [if_pos hv2]
      simp [cityPred, hv]
    · have hv2 : ¬(lowerStr v = "atlanta" ∨ lowerStr v = "\"atlanta\"") := by
        simpa using hv
      rw [if_neg hv2]
      simp [cityPred, hv]

/-- C4 witness: the amended rule over a collection holding an `Atlanta` record
and a `Johns Creek` record, for the query value `atlanta`. -/
theorem c4_city_atlanta_amended_witness :
    ∃ rs, search (mkEngine [[("city", Value.str "Atlanta")], [("city", Value.str "Johns Creek")]])
        (.query [⟨"city", .s "atlanta", none⟩] none) =
      .ok (mkEngine [[("city", Value.str "Atlanta")], [("city", Value.str "Johns Creek")]],
           .res rs.length rs none) ∧
      ∀ r, r ∈ rs ↔
        r ∈ (mkEngine [[("city", Value.str "Atlanta")],
                       [("city", Value.str "Johns Creek")]]).customers ∧
        (if lowerStr "atlanta" = "atlanta" ∨ lowerStr "atlanta" = "\"atlanta\"" then
           lowerStr (cityStrOf r) = "atlanta" ∨ lowerStr (origCityStrOf r) = "atlanta"
         else jsIncludes (lowerStr (cityStrOf r)) (lowerStr "atlanta") = true ∨
              jsIncludes (lowerStr (origCityStrOf r)) (lowerStr "atlanta") = true) :=
  c4_city_atlanta_amended
    (mkEngine [[("city", Value.str "Atlanta")], [("city", Value.str "Johns Creek")]])
    "atlanta" (by decide)

/-- The operator-branch evaluation of a `revenue_2024 >= T` criterion, as a
per-record predicate over the JS-coerced stored value. -/
def revPred (T : Rat) (r : Record) : Bool :=
  match effNum (lookupD r "revenue_2024") with
  | some x => decide (T ≤ x)
  | none => false

theorem evalCriterion_revenue_op (r : Record) (T : Rat) :
    evalCriterion r ⟨"revenue_2024", .n T, some ">="⟩ = .ok (revPred T r) := by
  simp only [evalCriterion, revPred, critNum]
  cases effNum (lookupD r "revenue_2024") with
  | none => rfl
  | some x => rfl

/-- C3 (amended): for the `revenue_2024 >= T` criterion produced by the
`companies with revenue over N` form, a record is in the result iff its stored
`revenue_2024` JS-coerces to a number `x` with `x >= T` (numbers themselves;
numeric strings via `parseFloat`; `null` as `0`; booleans as `0`/`1`).  In
particular every record with numeric revenue `>= T` is included — a record
whose revenue equals `T` exactly included (boundary) — and records whose
revenue is `undefined`, an object, or a string that does not parse as a number
never appear.  (A record with `null` revenue appears whenever `T <= 0`, which
is what the counterexample exhibits.) -/
theorem c3_revenue_threshold_amended (st : EngineState) (T : Rat) :
    ∃ rs, search st (.query [⟨"revenue_2024", .n T, some ">="⟩] none) =
        .ok (st, .res rs.length rs none) ∧
      (∀ r, r ∈ rs ↔ r ∈ st.customers ∧
        ∃ x, effNum (lookupD r "revenue_2024") = some x ∧ T ≤ x) ∧
      (∀ r ∈ st.customers, ∀ n : Rat, lookupD r "revenue_2024" = .num n → T ≤ n → r ∈ rs) ∧
      (∀ r ∈ rs, lookupD r "revenue_2024" ≠ .undefined ∧
        (∀ o, lookupD r "revenue_2024" ≠ .obj o) ∧
        (∀ s, lookupD r "revenue_2024" = .str s → jsParseFloat s ≠ none)) := by
  refine ⟨st.customers.filter (revPred T), ?_, ?_, ?_, ?_⟩
  · have hev : ∀ r ∈ st.customers, evalAll r [⟨"revenue_2024", .n T, some ">="⟩] =
        .ok (revPred T r) := fun r _ => evalAll_single (evalCriterion_revenue_op r T)
    have hfil := filterE_ok st.customers hev
    simp only [search]
    rw [if_pos (by simp), hfil]
    rfl
  · intro r
    rw [List.mem_filter]
    apply and_congr_right
    intro _
    unfold revPred
    cases he : effNum (lookupD r "revenue_2024") with
    | none => simp
    | some x =>
      simp only [decide_eq_true_eq]
      constructor
      · exact fun h => ⟨x, rfl, h⟩
      · rintro ⟨y, hy, hle⟩; cases hy; exact hle
  · intro r hr n hn hle
    rw [List.mem_filter]
    refine ⟨hr, ?_⟩
    unfold revPred
    rw [hn]
    simp only [effNum]
    simpa using hle
  · intro r hr
    have hm := List.mem_filter.mp hr
    have hp := hm.2
    unfold revPred at hp
    refine ⟨?_, ?_, ?_⟩
    · intro h; rw [h] at hp; simp [effNum] at hp
    · intro o h; rw [h] at hp; simp [effNum] at hp
    · intro s h hn; rw [h] at hp; simp [effNum, hn] at hp


/-- C3 counterexample: a record whose `revenue_2024` is `null` (not a number)
is INCLUDED by the criterion produced from `companies with revenue over 0` —
JavaScript's `isNaN(null)` is `false` and `null >= 0` coerces `null` to `0` —
contradicting the claim that no record with a non-numeric `revenue_2024`
appears. -/
theorem c3_revenue_threshold_counterexample :
    parseQuery (mkEngine [[("revenue_2024", Value.null)]]).availableFields
        "companies with revenue over 0" =
      .ok (.query [⟨"revenue_2024", .n 0, some ">="⟩] none) ∧
    search (mkEngine [[("revenue_2024", Value.null)]])
        (.query [⟨"revenue_2024", .n 0, some ">="⟩] none) =
      .ok (mkEngine [[("revenue_2024", Value.null)]],
           .res 1 [[("revenue_2024", Value.null)]] none) ∧
    (∀ n : Rat, lookupD [("revenue_2024", Value.null)] "revenue_2024" ≠ .num n) := by
  refine ⟨by decide, by decide, ?_⟩
  intro n h
  rw [show lookupD [("revenue_2024", Value.null)] "revenue_2024" = Value.null from by decide]
    at h
  cases h

theorem startsWithL_self (l : List Char) : startsWithL l l = true := by
  induction l with
  | nil => rfl
  | cons c t ih => simp [startsWithL, ih]

theorem jsIncludes_self (s : String) : jsIncludes s s = true := by
  obtain ⟨l⟩ := s
  cases l with
  | nil => rfl
  | cons c t => simp [jsIncludes, containsL, startsWithL_self]

theorem takeWhile_append_stop (p : Char → Bool) (l₁ : List Char) (c : Char) (l₂ : List Char)
    (h1 : ∀ x ∈ l₁, p x = true) (h2 : p c = false) :
    (l₁ ++ c :: l₂).takeWhile p = l₁ := by
  induction l₁ with
  | nil => simp [List.takeWhile_cons, h2]
  | cons a t ih =>
    rw [List.cons_append, List.takeWhile_cons, if_pos (h1 a (by simp))]
    rw [ih (fun x hx => h1 x (by simp [hx]))]

theorem dropWhile_append_stop (p : Char → Bool) (l₁ : List Char) (c : Char) (l₂ : List Char)
    (h1 : ∀ x ∈ l₁, p x = true) (h2 : p c = false) :
    (l₁ ++ c :: l₂).dropWhile p = c :: l₂ := by
  induction l₁ with
  | nil => simp [List.dropWhile_cons, h2]
  | cons a t ih =>
    rw [List.cons_append, List.dropWhile_cons, if_pos (h1 a (by simp))]
    exact ih (fun x hx => h1 x (by simp [hx]))

theorem splitCharAux_no_sep (c : Char) (l acc : List Char) (h : c ∉ l) :
    splitCharAux c l acc = [acc.reverse ++ l] := by
  induction l generalizing acc with
  | nil => simp [splitCharAux]
  | cons x t ih =>
    have hx : (x == c) = false := by
      simp only [beq_eq_false_iff_ne]
      intro hh; exact h (by simp [hh])
    rw [splitCharAux, if_neg (by simp [hx])]
    rw [ih (x :: acc) (fun hh => h (by simp [hh]))]
    simp

theorem validDotted_word (l : List Char) (hne : l ≠ [])
    (h : ∀ x ∈ l, isWordChar x = true) : validDotted l = true := by
  have hdotmem : '.' ∉ l := fun hm => by have := h '.' hm; simp [isWordChar] at this
  unfold validDotted
  rw [splitCharAux_no_sep '.' l [] hdotmem]
  simp only [List.nil_append, List.reverse_nil, List.all_cons, List.all_nil,
    Bool.and_true, Bool.and_eq_true, decide_eq_true_eq, ne_eq, List.all_eq_true]
  exact ⟨hne, hne, h⟩

theorem colonMatch_append (A w : String) (hA : A ≠ "")
    (hword : ∀ ch ∈ A.data, isWordChar ch = true) (hw : w ≠ "") :
    colonMatch (A ++ ":" ++ w) = some (A, w) := by
  obtain ⟨la⟩ := A
  obtain ⟨lw⟩ := w
  have hq : ((⟨la⟩ : String) ++ ":" ++ (⟨lw⟩ : String)).data = la ++ ':' :: lw := by
    show (la ++ [':']) ++ lw = la ++ ':' :: lw
    simp
  have hwd : ∀ x ∈ la, isWordDot x = true := fun x hx => by
    simp [isWordDot, hword x hx]
  have hcolon : isWordDot ':' = false := by decide
  have hla : la ≠ [] := fun hh => hA (by rw [hh])
  have hlw : lw ≠ [] := fun hh => hw (by rw [hh])
  unfold colonMatch
  rw [hq]
  simp only [takeWhile_append_stop _ la ':' lw hwd hcolon,
    dropWhile_append_stop _ la ':' lw hwd hcolon,
    if_pos (validDotted_word la hla hword), hlw]
  simp [hlw]

theorem mem_data_colon (A w : String) : ':' ∈ (A ++ ":" ++ w).data := by
  obtain ⟨la⟩ := A
  obtain ⟨lw⟩ := w
  show ':' ∈ (la ++ [':']) ++ lw
  simp

theorem directive_ne_of_colon (q : String) (hq : ':' ∈ q.data) :
    lowerStr q ≠ "show fields" ∧ lowerStr q ≠ "fields" ∧ lowerStr q ≠ "list fields" := by
  have hm : ':' ∈ (lowerStr q).data := by
    obtain ⟨l⟩ := q
    show ':' ∈ l.map Char.toLower
    exact List.mem_map.mpr ⟨':', hq, by decide⟩
  refine ⟨?_, ?_, ?_⟩ <;> intro h <;> rw [h] at hm <;> revert hm <;> decide

theorem parseQuery_colon (af : Option (List String)) (A w : String) (hA : A ≠ "")
    (hword : ∀ ch ∈ A.data, isWordChar ch = true) (hw : w ≠ "") :
    parseQuery af (A ++ ":" ++ w) =
      .ok (.query [⟨trimStr A, .s (stripEdgeQuotes (trimStr w)), none⟩] none) := by
  have hd := directive_ne_of_colon _ (mem_data_colon A w)
  unfold parseQuery
  rw [if_neg (by simp [hd.1, hd.2.1, hd.2.2])]
  rw [colonMatch_append A w hA hword hw]

theorem dropWhile_all_false (p : Char → Bool) (l : List Char)
    (h : ∀ c ∈ l, p c = false) : l.dropWhile p = l := by
  cases l with
  | nil => rfl
  | cons a t => simp [List.dropWhile_cons, h a (by simp)]

theorem trimStr_noop (s : String) (h : ∀ c ∈ s.data, isWs c = false) : trimStr s = s := by
  obtain ⟨l⟩ := s
  show (⟨((l.dropWhile isWs).reverse.dropWhile isWs).reverse⟩ : String) = ⟨l⟩
  rw [dropWhile_all_false isWs l h,
      dropWhile_all_false isWs l.reverse (fun c hc => h c (List.mem_reverse.mp hc)),
      List.reverse_reverse]

theorem stripEdgeQuotes_noop (s : String) (h1 : s.data.head? ≠ some '"')
    (h2 : s.data.getLast? ≠ some '"') : stripEdgeQuotes s = s := by
  obtain ⟨l⟩ := s
  unfold stripEdgeQuotes
  simp only [if_neg (show ¬((l.head? == some '"') = true) by simpa using h1)]
  simp only [if_neg (show ¬((l.getLast? == some '"') = true) by simpa using h2)]

theorem isWs_eq_false_of_word (c : Char) (h : isWordChar c = true) : isWs c = false := by
  by_cases h1 : c = ' '
  · subst h1; exact absurd h (by decide)
  by_cases h2 : c = '\t'
  · subst h2; exact absurd h (by decide)
  by_cases h3 : c = '\r'
  · subst h3; exact absurd h (by decide)
  by_cases h4 : c = '\n'
  · subst h4; exact absurd h (by decide)
  simp [isWs, Char.isWhitespace, h1, h2, h3, h4]

theorem hasDot_false_of_word (A : String) (hword : ∀ ch ∈ A.data, isWordChar ch = true) :
    hasDot A = false := by
  have hm : '.' ∉ A.data := fun hm => by have := hword '.' hm; simp [isWordChar] at this
  simpa [hasDot] using hm

theorem matchesValue_self_str (s : String) : matchesValue (.str s) (.str s) = true := by
  simp [matchesValue]

theorem evalCriterion_self_num (R : Record) (A : String) (n : Rat)
    (hA : lookupD R A = .num n)
    (hmem : A ∈ (["revenue_2024", "revenue_2023", "revenue_2022", "employee_count",
                  "growth"] : List String))
    (hpf : jsParseFloat (jsToString (Value.num n)) = some n) :
    evalCriterion R ⟨A, .s (jsToString (Value.num n)), none⟩ = .ok true := by
  simp only [List.mem_cons, List.mem_singleton, List.not_mem_nil, or_false] at hmem
  rcases hmem with rfl | rfl | rfl | rfl | rfl
  · simp [evalCriterion, hA, critParseFloat, jsParseFloatV, hpf,
      show hasDot "revenue_2024" = false from by decide]
  · simp [evalCriterion, hA, critParseFloat, jsParseFloatV, hpf,
      show hasDot "revenue_2023" = false from by decide]
  · simp [evalCriterion, hA, critParseFloat, jsParseFloatV, hpf,
      show hasDot "revenue_2022" = false from by decide]
  · simp [evalCriterion, hA, critParseFloat, jsParseFloatV, hpf,
      show hasDot "employee_count" = false from by decide]
  · simp [evalCriterion, hA, critParseFloat, jsParseFloatV, hpf,
      show hasDot "growth" = false from by decide]

theorem evalCriterion_self_str (R : Record) (A : String) (s : String)
    (hA : lookupD R A = .str s)
    (hword : ∀ ch ∈ A.data, isWordChar ch = true)
    (hs : s ≠ "") (htr : trimStr s = s)
    (hq1 : lowerStr s ≠ "\"atlanta\"")
    (hexc : A ∉ (["products", "clean_products", "location", "revenue_2024", "revenue_2023",
                  "revenue_2022", "employee_count", "growth"] : List String)) :
    evalCriterion R ⟨A, .s s, none⟩ = .ok true := by
  have hdot := hasDot_false_of_word A hword
  have hcv : cleanValue (Value.str s) = lowerStr s := by
    simp [cleanValue, truthy, hs, jsToString, htr]
  by_cases h1 : A = "name"
  · subst h1
    simp [evalCriterion, hA, orEmptyStr, truthy, hs, CVal.toValue, hcv, jsIncludes_self]
  by_cases h2 : A = "city"
  · subst h2
    have ho : orEmptyStr (Value.str s) = Value.str s := by simp [orEmptyStr, truthy, hs]
    simp only [evalCriterion]
    rw [if_neg (by decide), if_pos (by decide)]
    simp only [hA, ho, CVal.toValue, cvalLower, toLowerE, Bind.bind, Except.bind]
    by_cases hat : (lowerStr s == "atlanta") = true
    · rw [if_pos (by simp [hat]), if_pos hat]
    · rw [if_neg (by simp [hat, hq1]), if_pos (jsIncludes_self (lowerStr s))]
  by_cases h3 : A = "branch_description"
  · subst h3
    simp [evalCriterion, hA, orEmptyStr, truthy, hs, CVal.toValue, hcv, jsIncludes_self]
  by_cases h4 : A = "coverage_name"
  · subst h4
    simp [evalCriterion, hA, orEmptyStr, truthy, hs, CVal.toValue, hcv, jsIncludes_self]
  -- generic attribute
  have e1 : A ∉ (["products", "clean_products"] : List String) := fun hm => hexc (by
    rcases List.mem_cons.mp hm with h | h
    · simp [h]
    · simp at h; simp [h])
  simp only [evalCriterion]
  rw [if_neg (by simp [h1]), if_neg (by simp [h2]), if_neg (by simp [h3, h4]),
      if_neg (by simp [hdot])]
  rw [if_neg (by
        simp only [Bool.or_eq_true, beq_iff_eq]
        rintro (h | h) <;> exact e1 (by simp [h]))]
  rw [if_neg (by
        simp only [Bool.or_eq_true, beq_iff_eq]
        rintro (((h | h) | h) | h) <;> exact hexc (by simp [h]))]
  rw [if_neg (by
        simp only [beq_iff_eq]
        intro h; exact hexc (by simp [h]))]
  rw [if_neg (by
        simp only [beq_iff_eq]
        intro h; exact hexc (by simp [h]))]
  simp [hA, CVal.toValue, matchesValue_self_str]

/-- The boolean a (non-throwing) criterion evaluation returns. -/
def evalB (c : Criterion) (r : Record) : Bool :=
  match evalCriterion r c with
  | .ok b => b
  | .error _ => false

/-- C2 (amended): for a record R in the collection and an attribute A present
on R whose name consists of word characters only, querying `A:<value of R.A>`
includes R in the result set, provided the stored value is (i) a non-empty
trimmed string without a leading/trailing double quote (and not lowercasing
to a quoted `"atlanta"`), for an attribute outside the engine's special-cased
set (products, clean_products, location, the revenue figures, employee_count,
growth), or (ii) a number stored under one of the numeric special attributes
whose rendering parses back to itself — and no record makes the evaluation
throw. -/
theorem c2_self_inclusion_amended (st : EngineState) (R : Record) (A : String) (v : Value)
    (hR : R ∈ st.customers) (hA : lookupD R A = v)
    (hAne : A ≠ "") (hword : ∀ ch ∈ A.data, isWordChar ch = true)
    (hcase :
      (∃ s, v = .str s ∧ s ≠ "" ∧ trimStr s = s ∧
        s.data.head? ≠ some '"' ∧ s.data.getLast? ≠ some '"' ∧ lowerStr s ≠ "\"atlanta\"" ∧
        A ∉ (["products", "clean_products", "location", "revenue_2024", "revenue_2023",
              "revenue_2022", "employee_count", "growth"] : List String)) ∨
      (∃ n : Rat, v = .num n ∧
        A ∈ (["revenue_2024", "revenue_2023", "revenue_2022", "employee_count",
              "growth"] : List String) ∧
        jsParseFloat (jsToString v) = some n ∧ trimStr (jsToString v) = jsToString v ∧
        (jsToString v).data.head? ≠ some '"' ∧ (jsToString v).data.getLast? ≠ some '"' ∧
        jsToString v ≠ ""))
    (hok : ∀ r ∈ st.customers, ∃ b, evalCriterion r ⟨A, .s (jsToString v), none⟩ = .ok b) :
    ∃ rs, parseQuery st.availableFields (A ++ ":" ++ jsToString v) =
        .ok (.query [⟨A, .s (jsToString v), none⟩] none) ∧
      search st (.query [⟨A, .s (jsToString v), none⟩] none) =
        .ok (st, .res rs.length rs none) ∧
      R ∈ rs := by
  have hwne : jsToString v ≠ "" := by
    rcases hcase with ⟨s, rfl, hs, _⟩ | ⟨n, rfl, _, _, _, _, _, h⟩
    · exact hs
    · exact h
  have htrw : trimStr (jsToString v) = jsToString v := by
    rcases hcase with ⟨s, rfl, _, ht, _⟩ | ⟨n, rfl, _, _, ht, _⟩
    · exact ht
    · exact ht
  have hstripw : stripEdgeQuotes (trimStr (jsToString v)) = jsToString v := by
    rw [htrw]
    rcases hcase with ⟨s, rfl, _, _, hh, hl, _⟩ | ⟨n, rfl, _, _, _, hh, hl, _⟩
    · exact stripEdgeQuotes_noop _ hh hl
    · exact stripEdgeQuotes_noop _ hh hl
  have htrA : trimStr A = A :=
    trimStr_noop A (fun c hc => isWs_eq_false_of_word c (hword c hc))
  have hparse : parseQuery st.availableFields (A ++ ":" ++ jsToString v) =
      .ok (.query [⟨A, .s (jsToString v), none⟩] none) := by
    rw [parseQuery_colon st.availableFields A (jsToString v) hAne hword hwne,
        htrA, hstripw]
  have hevR : evalCriterion R ⟨A, .s (jsToString v), none⟩ = .ok true := by
    rcases hcase with ⟨s, rfl, hs, htr, _, _, hq1, hexc⟩ | ⟨n, rfl, hmem, hpf, _⟩
    · exact evalCriterion_self_str R A s hA hword hs htr hq1 hexc
    · exact evalCriterion_self_num R A n hA hmem hpf
  refine ⟨st.customers.filter (evalB ⟨A, .s (jsToString v), none⟩), hparse, ?_, ?_⟩
  · have hev : ∀ r ∈ st.customers, evalAll r [⟨A, .s (jsToString v), none⟩] =
        .ok (evalB ⟨A, .s (jsToString v), none⟩ r) := by
      intro r hr
      obtain ⟨b, hb⟩ := hok r hr
      have hg : evalB ⟨A, .s (jsToString v), none⟩ r = b := by simp [evalB, hb]
      rw [hg]
      exact evalAll_single hb
    have hfil := filterE_ok st.customers hev
    simp only [search]
    rw [if_pos (by simp), hfil]
    rfl
  · rw [List.mem_filter]
    exact ⟨hR, by simp [evalB, hevR]⟩


/-- C2 counterexample: the attribute `"my field"` (with a space) is present on
the record with value `"x"`, but the query `my field:x` does not hit the colon
form — the bare two-token form parses it as attribute `my` with value
`field:x`, which matches nothing, so the record is excluded (count 0) instead
of included. -/
theorem c2_self_inclusion_counterexample :
    lookupD [("my field", Value.str "x")] "my field" = Value.str "x" ∧
    parseQuery (mkEngine [[("my field", Value.str "x")]]).availableFields "my field:x" =
      .ok (.query [⟨"my", .s "field:x", none⟩] none) ∧
    search (mkEngine [[("my field", Value.str "x")]])
        (.query [⟨"my", .s "field:x", none⟩] none) =
      .ok (mkEngine [[("my field", Value.str "x")]], .res 0 [] none) := by
  refine ⟨by decide, by decide, by decide⟩

/-- C2 witness: self-inclusion for the `sector` attribute of the sample
record. -/
theorem c2_self_inclusion_amended_witness :
    ∃ rs, parseQuery (mkEngine [acmeRecord]).availableFields
        ("sector" ++ ":" ++ jsToString (Value.str "Financial Services")) =
      .ok (.query [⟨"sector", .s (jsToString (Value.str "Financial Services")), none⟩] none) ∧
      search (mkEngine [acmeRecord])
          (.query [⟨"sector", .s (jsToString (Value.str "Financial Services")), none⟩] none) =
        .ok (mkEngine [acmeRecord], .res rs.length rs none) ∧
      acmeRecord ∈ rs :=
  c2_self_inclusion_amended (mkEngine [acmeRecord]) acmeRecord "sector"
    (.str "Financial Services") (by decide) (by decide) (by decide) (by decide)
    (Or.inl ⟨"Financial Services", rfl, by decide, by decide, by decide, by decide,
      by decide, by decide⟩)
    (by decide)

end SalesData
